import Mathlib

/-!
Verification of the RPN counter-equation compiler in
`lib/xe/oa-configs/codegen.py`.

The Python module is shallowly embedded here:

* pure string helpers of the Python runtime (`str.split()`, `str.split(sep)`,
  `' '.join`, `str.lower()`) are re-implemented over `List Char` so that all
  definitions are executable and kernel-reducible;
* the statement-emitting operator strategies (`Gen.emit_*`) are pure functions
  returning the list of emitted C statement strings plus the next temporary id;
* the two RPN stack machines (`Gen.output_rpn_equation_code`,
  `Gen.splice_rpn_expression`) are modelled with an explicit operand stack.
  Python exceptions (`raise Exception(...)`, `NameError` from an undefined
  identifier, `IndexError` from `stack.pop()` / `token[0]` on empty data)
  become values of `PyErr`;
* `Counter.compute_hashes` (memoized recursion over the sibling-reference
  graph) is modelled with an explicit fuel parameter: `hashesFuel` returns
  `none` exactly when the recursion does not finish within the given depth.

A literal `\x7b` in a string below denotes the opening-brace character
emitted by the availability formatter.
-/

/-- Python exceptions raised by the compiler: `Exception(msg)`,
a `NameError` for an undefined identifier, and `IndexError`
(from `stack.pop()` on an empty list or `s[0]` on an empty string). -/
inductive PyErr where
  | exception (msg : String)
  | nameError (ident : String)
  | indexError
deriving DecidableEq

/-- Strip the literal `pat` from the front of `s`; `none` when `s` does not
start with `pat`.  Used both for regex-literal matching and for the
Python substring split. -/
def dropLit : List Char → List Char → Option (List Char)
  | [], s => some s
  | _ :: _, [] => none
  | p :: ps, c :: cs => if c = p then dropLit ps cs else none

/-- Maximal digit prefix of a character list, together with the rest. -/
def takeDigits : List Char → List Char × List Char
  | [] => ([], [])
  | c :: cs =>
    if c.isDigit then
      let (d, r) := takeDigits cs
      (c :: d, r)
    else ([], c :: cs)

/-- Accumulator pass of Python `str.split()`: split on whitespace runs,
dropping empty pieces.  `cur` holds the current token reversed. -/
def splitWsAcc : List Char → List Char → List (List Char)
  | [], cur => if cur = [] then [] else [cur.reverse]
  | c :: cs, cur =>
    if c.isWhitespace then
      if cur = [] then splitWsAcc cs []
      else cur.reverse :: splitWsAcc cs []
    else splitWsAcc cs (c :: cur)

/-- Python `equation.split()`: whitespace-run tokenization. -/
def pySplit (s : String) : List String :=
  (splitWsAcc s.data []).map fun l => ⟨l⟩

/-- Python `sep.join(l)`. -/
def pyJoin (sep : String) : List String → String
  | [] => ""
  | [x] => x
  | x :: y :: xs => x ++ sep ++ pyJoin sep (y :: xs)

/-- Character-level split on a separator occurrence, leftmost first,
non-overlapping; pieces may be empty.  `fuel` only serves termination and
is always called with `fuel = input length` (a nonempty separator consumes
at least one character per split, so the fuel never runs out). -/
def splitSepChars (sep : List Char) : Nat → List Char → List Char → List (List Char)
  | _, [], cur => [cur.reverse]
  | 0, l, cur => [cur.reverse ++ l]
  | fuel + 1, c :: cs, cur =>
    match dropLit sep (c :: cs) with
    | some rest => cur.reverse :: splitSepChars sep fuel rest []
    | none => splitSepChars sep fuel cs (c :: cur)

/-- Python `s.split(sep)` for a nonempty separator string. -/
def pySplitOn (sep s : String) : List String :=
  (splitSepChars sep.data s.data.length s.data []).map fun l => ⟨l⟩

/-- Python `s.lower()` (ASCII as used by the generator's READ domain tags). -/
def pyLower (s : String) : String := ⟨s.data.map Char.toLower⟩

/-- Python `s[0] == ch` : `IndexError` on the empty string, otherwise the
comparison of the first character. -/
def firstCharIs (ch : Char) (s : String) : Except PyErr Bool :=
  match s.data with
  | [] => .error .indexError
  | c :: _ => .ok (c = ch)

/-- One counter of the XML catalog, as consumed by `codegen.py`
(`Counter.xml.get(...)` fields that the compiler reads).
`max_equation = none` models an absent XML attribute. -/
structure Counter where
  name : String
  symbol_name : String
  underscore_name : String
  equation : String
  max_equation : Option String
deriving DecidableEq

/-- One metric set: chipset/domain context plus its counters, in catalog
order (`Set` in the source; the Lean name avoids clashing with `Set`). -/
structure SetModel where
  chipset : String
  name : String
  underscore_name : String
  counters : List Counter
deriving DecidableEq

/-- The process-wide hardware-variable table `hw_vars_mapping`
(token, target C accessor); the optional `desc` fields are dropped as the
compiler never reads them. -/
def hw_vars_mapping : List (String × String) :=
  [("$EuCoresTotalCount", "perf->devinfo.n_eus"),
   ("$EuSlicesTotalCount", "perf->devinfo.n_eu_slices"),
   ("$EuSubslicesTotalCount", "perf->devinfo.n_eu_sub_slices"),
   ("$EuDualSubslicesTotalCount", "perf->devinfo.n_eu_sub_slices"),
   ("$EuDualSubslicesSlice0123Count", "perf->devinfo.n_eu_sub_slices_half_slices"),
   ("$EuThreadsCount", "perf->devinfo.eu_threads_count"),
   ("$VectorEngineTotalCount", "perf->devinfo.n_eus"),
   ("$VectorEnginePerXeCoreCount", "perf->devinfo.n_eu_sub_slices"),
   ("$VectorEngineThreadsCount", "perf->devinfo.eu_threads_count"),
   ("$SliceMask", "perf->devinfo.slice_mask"),
   ("$SliceTotalCount", "perf->devinfo.n_eu_slices"),
   ("$SubsliceMask", "perf->devinfo.subslice_mask"),
   ("$DualSubsliceMask", "perf->devinfo.subslice_mask"),
   ("$GtSliceMask", "perf->devinfo.slice_mask"),
   ("$GtSubsliceMask", "perf->devinfo.subslice_mask"),
   ("$GtDualSubsliceMask", "perf->devinfo.subslice_mask"),
   ("$GtXeCoreMask", "perf->devinfo.slice_mask"),
   ("$XeCoreMask", "perf->devinfo.slice_mask"),
   ("$XeCoreTotalCount", "perf->devinfo.n_eu_sub_slices"),
   ("$GpuTimestampFrequency", "perf->devinfo.timestamp_frequency"),
   ("$GpuMinFrequency", "perf->devinfo.gt_min_freq"),
   ("$GpuMaxFrequency", "perf->devinfo.gt_max_freq"),
   ("$SkuRevisionId", "perf->devinfo.revision"),
   ("$QueryMode", "perf->devinfo.query_mode")]

/-- Dictionary lookup `self.hw_vars[name]['c']`. -/
def hwVarsLookup (nm : String) : Option String :=
  (hw_vars_mapping.find? fun e => e.1 = nm).map (·.2)

/-- Match of the regex `\x24GtSlice([0-9]+)$` at the head of `s` (one
capture group of digits, anchored at the end). -/
def matchOneAt (lit : List Char) (s : List Char) : Option (List Char) :=
  match dropLit lit s with
  | none => none
  | some r =>
    let (d, rest) := takeDigits r
    if d ≠ [] ∧ rest = [] then some d else none

/-- Leftmost `re.search` for a literal followed by digits up to the end. -/
def searchOne (lit : List Char) : List Char → Option (List Char)
  | [] => none
  | c :: cs =>
    match matchOneAt lit (c :: cs) with
    | some d => some d
    | none => searchOne lit cs

/-- Match at the head of `s` of a literal, a digit group, a second literal
and a final digit group anchored at the end (the two-capture pattern
families). -/
def matchTwoAt (lit1 lit2 : List Char) (s : List Char) : Option (List Char × List Char) :=
  match dropLit lit1 s with
  | none => none
  | some r =>
    let (d1, r1) := takeDigits r
    if d1 = [] then none
    else
      match dropLit lit2 r1 with
      | none => none
      | some r2 =>
        let (d2, r3) := takeDigits r2
        if d2 ≠ [] ∧ r3 = [] then some (d1, d2) else none

/-- Leftmost `re.search` for the two-capture pattern families. -/
def searchTwo (lit1 lit2 : List Char) : List Char → Option (List Char × List Char)
  | [] => none
  | c :: cs =>
    match matchTwoAt lit1 lit2 (c :: cs) with
    | some p => some p
    | none => searchTwo lit1 lit2 cs

/-- Dictionary `set.counter_vars` / `set.read_funcs` lookup: the source
builds the dict in catalog order, so a later duplicate key would win —
hence the search over the reversed list. -/
def counterVarsFind (s : SetModel) (tok : String) : Option Counter :=
  s.counters.reverse.find? fun c => ("$" ++ c.symbol_name) = tok

/-- Index of the first counter of `l` whose `counter_vars` key is `tok`. -/
def revFindIdx (tok : String) : List Counter → Option Nat
  | [] => none
  | c :: cs =>
    if ("$" ++ c.symbol_name) = tok then some 0
    else (revFindIdx tok cs).map (· + 1)

/-- Index (into `s.counters`) variant of `counterVarsFind` (searching the
reversed list keeps the dict's later-entry-wins semantics). -/
def counterVarsIdx (s : SetModel) (tok : String) : Option Nat :=
  match revFindIdx tok s.counters.reverse with
  | none => none
  | some k => some (s.counters.length - 1 - k)

/-- The generated reader symbol `Counter.read_sym`. -/
def read_sym (s : SetModel) (c : Counter) : String :=
  s.chipset ++ "__" ++ s.underscore_name ++ "__" ++ c.underscore_name ++ "__read"

/-- The symbol resolver `Gen.resolve_variable`: hardware-variable table,
then sibling counters, then the three parametric pattern families; `none`
when every strategy fails. -/
def resolve_variable (s : SetModel) (nm : String) : Option String :=
  match hwVarsLookup nm with
  | some cexp => some cexp
  | none =>
    match counterVarsFind s nm with
    | some c => some (read_sym s c ++ "(perf, metric_set, accumulator)")
    | none =>
      match searchOne "$GtSlice".data nm.data with
      | some d =>
        some ("intel_xe_perf_devinfo_slice_available(&perf->devinfo, " ++
              (⟨d⟩ : String) ++ ")")
      | none =>
        match searchTwo "$GtSlice".data "DualSubslice".data nm.data with
        | some (d1, d2) =>
          some ("intel_xe_perf_devinfo_subslice_available(&perf->devinfo, " ++
                (⟨d1⟩ : String) ++ ", " ++ (⟨d2⟩ : String) ++ ")")
        | none =>
          match searchTwo "$GtSlice".data "XeCore".data nm.data with
          | some (d1, d2) =>
            some ("intel_xe_perf_devinfo_subslice_available(&perf->devinfo, " ++
                  (⟨d1⟩ : String) ++ ", " ++ (⟨d2⟩ : String) ++ ")")
          | none => none

/-- Python `args[i]` (every strategy is called with exactly `argc` args, so
the default is never read). -/
def arg (args : List String) (i : Nat) : String := args.getD i ""

/-- Strategy `Gen.emit_fadd`. -/
def emit_fadd (tmp_id : Nat) (args : List String) : List String × Nat :=
  (["double tmp" ++ toString tmp_id ++ " = " ++ arg args 1 ++ " + " ++ arg args 0 ++ ";"],
   tmp_id + 1)

/-- Strategy `Gen.emit_fdiv` (divide-by-zero-guarded). -/
def emit_fdiv (tmp_id : Nat) (args : List String) : List String × Nat :=
  (["double tmp" ++ toString tmp_id ++ " = " ++ arg args 1 ++ ";",
    "double tmp" ++ toString (tmp_id + 1) ++ " = " ++ arg args 0 ++ ";",
    "double tmp" ++ toString (tmp_id + 2) ++ " = tmp" ++ toString (tmp_id + 1) ++
      " ? tmp" ++ toString tmp_id ++ " / tmp" ++ toString (tmp_id + 1) ++ " : 0;"],
   tmp_id + 3)

/-- Strategy `Gen.emit_fmax`. -/
def emit_fmax (tmp_id : Nat) (args : List String) : List String × Nat :=
  (["double tmp" ++ toString tmp_id ++ " = " ++ arg args 1 ++ ";",
    "double tmp" ++ toString (tmp_id + 1) ++ " = " ++ arg args 0 ++ ";",
    "double tmp" ++ toString (tmp_id + 2) ++ " = MAX(tmp" ++ toString tmp_id ++
      ", tmp" ++ toString (tmp_id + 1) ++ ");"],
   tmp_id + 3)

/-- Strategy `Gen.emit_fmul`. -/
def emit_fmul (tmp_id : Nat) (args : List String) : List String × Nat :=
  (["double tmp" ++ toString tmp_id ++ " = " ++ arg args 1 ++ " * " ++ arg args 0 ++ ";"],
   tmp_id + 1)

/-- Strategy `Gen.emit_fsub`. -/
def emit_fsub (tmp_id : Nat) (args : List String) : List String × Nat :=
  (["double tmp" ++ toString tmp_id ++ " = " ++ arg args 1 ++ " - " ++ arg args 0 ++ ";"],
   tmp_id + 1)

/-- Strategy `Gen.emit_read` (`args[1]` is the accumulator-domain tag,
lower-cased; `args[0]` the index expression). -/
def emit_read (tmp_id : Nat) (args : List String) : List String × Nat :=
  (["uint64_t tmp" ++ toString tmp_id ++ " = accumulator[metric_set->" ++
      pyLower (arg args 1) ++ "_offset + " ++ arg args 0 ++ "];"],
   tmp_id + 1)

/-- Strategy `Gen.emit_uadd`. -/
def emit_uadd (tmp_id : Nat) (args : List String) : List String × Nat :=
  (["uint64_t tmp" ++ toString tmp_id ++ " = " ++ arg args 1 ++ " + " ++ arg args 0 ++ ";"],
   tmp_id + 1)

/-- Strategy `Gen.emit_udiv` (divide-by-zero-guarded). -/
def emit_udiv (tmp_id : Nat) (args : List String) : List String × Nat :=
  (["uint64_t tmp" ++ toString tmp_id ++ " = " ++ arg args 1 ++ ";",
    "uint64_t tmp" ++ toString (tmp_id + 1) ++ " = " ++ arg args 0 ++ ";",
    "uint64_t tmp" ++ toString (tmp_id + 2) ++ " = tmp" ++ toString (tmp_id + 1) ++
      " ? tmp" ++ toString tmp_id ++ " / tmp" ++ toString (tmp_id + 1) ++ " : 0;"],
   tmp_id + 3)

/-- Strategy `Gen.emit_umul`. -/
def emit_umul (tmp_id : Nat) (args : List String) : List String × Nat :=
  (["uint64_t tmp" ++ toString tmp_id ++ " = " ++ arg args 1 ++ " * " ++ arg args 0 ++ ";"],
   tmp_id + 1)

/-- Strategy `Gen.emit_usub`. -/
def emit_usub (tmp_id : Nat) (args : List String) : List String × Nat :=
  (["uint64_t tmp" ++ toString tmp_id ++ " = " ++ arg args 1 ++ " - " ++ arg args 0 ++ ";"],
   tmp_id + 1)

/-- Strategy `Gen.emit_umin`. -/
def emit_umin (tmp_id : Nat) (args : List String) : List String × Nat :=
  (["uint64_t tmp" ++ toString tmp_id ++ " = MIN(" ++ arg args 1 ++ ", " ++ arg args 0 ++ ");"],
   tmp_id + 1)

/-- Strategy `Gen.emit_lshft`. -/
def emit_lshft (tmp_id : Nat) (args : List String) : List String × Nat :=
  (["uint64_t tmp" ++ toString tmp_id ++ " = " ++ arg args 1 ++ " << " ++ arg args 0 ++ ";"],
   tmp_id + 1)

/-- Strategy `Gen.emit_rshft`. -/
def emit_rshft (tmp_id : Nat) (args : List String) : List String × Nat :=
  (["uint64_t tmp" ++ toString tmp_id ++ " = " ++ arg args 1 ++ " >> " ++ arg args 0 ++ ";"],
   tmp_id + 1)

/-- Strategy `Gen.emit_and`. -/
def emit_and (tmp_id : Nat) (args : List String) : List String × Nat :=
  (["uint64_t tmp" ++ toString tmp_id ++ " = " ++ arg args 1 ++ " & " ++ arg args 0 ++ ";"],
   tmp_id + 1)

/-- Strategy `Gen.emit_ulte`. -/
def emit_ulte (tmp_id : Nat) (args : List String) : List String × Nat :=
  (["uint64_t tmp" ++ toString tmp_id ++ " = " ++ arg args 1 ++ " <= " ++ arg args 0 ++ ";"],
   tmp_id + 1)

/-- Strategy `Gen.emit_ult`. -/
def emit_ult (tmp_id : Nat) (args : List String) : List String × Nat :=
  (["uint64_t tmp" ++ toString tmp_id ++ " = " ++ arg args 1 ++ " < " ++ arg args 0 ++ ";"],
   tmp_id + 1)

/-- Strategy `Gen.emit_ugte`. -/
def emit_ugte (tmp_id : Nat) (args : List String) : List String × Nat :=
  (["uint64_t tmp" ++ toString tmp_id ++ " = " ++ arg args 1 ++ " >= " ++ arg args 0 ++ ";"],
   tmp_id + 1)

/-- Strategy `Gen.emit_ugt`. -/
def emit_ugt (tmp_id : Nat) (args : List String) : List String × Nat :=
  (["uint64_t tmp" ++ toString tmp_id ++ " = " ++ arg args 1 ++ " > " ++ arg args 0 ++ ";"],
   tmp_id + 1)

/-- The statement-emitting operator table `self.ops`, in source insertion
order: operator token, arity, emission strategy. -/
def opsTable : List (String × Nat × (Nat → List String → List String × Nat)) :=
  [("FADD", 2, emit_fadd),
   ("FDIV", 2, emit_fdiv),
   ("FMAX", 2, emit_fmax),
   ("FMUL", 2, emit_fmul),
   ("FSUB", 2, emit_fsub),
   ("READ", 2, emit_read),
   ("UADD", 2, emit_uadd),
   ("UDIV", 2, emit_udiv),
   ("UMUL", 2, emit_umul),
   ("USUB", 2, emit_usub),
   ("UMIN", 2, emit_umin),
   ("<<", 2, emit_lshft),
   (">>", 2, emit_rshft),
   ("AND", 2, emit_and),
   ("UGTE", 2, emit_ugte),
   ("UGT", 2, emit_ugt),
   ("ULTE", 2, emit_ulte),
   ("ULT", 2, emit_ult)]

/-- Membership test / lookup `token in self.ops` and `self.ops[op]`. -/
def opsLookup (nm : String) : Option (Nat × (Nat → List String → List String × Nat)) :=
  (opsTable.find? fun e => e.1 = nm).map (·.2)

/-- Helper `Gen.brkt`: parenthesize a composite (space-containing)
subexpression, embed a single token bare. -/
def brkt (subexp : String) : String :=
  if subexp.data.contains ' ' then "(" ++ subexp ++ ")" else subexp

/-- Splicer `Gen.splice_bitwise_and`. -/
def splice_bitwise_and (args : List String) : String :=
  brkt (arg args 1) ++ " & " ++ brkt (arg args 0)

/-- Splicer `Gen.splice_logical_and`. -/
def splice_logical_and (args : List String) : String :=
  brkt (arg args 1) ++ " && " ++ brkt (arg args 0)

/-- Splicer `Gen.splice_ulte`. -/
def splice_ulte (args : List String) : String :=
  brkt (arg args 1) ++ " <= " ++ brkt (arg args 0)

/-- Splicer `Gen.splice_ult`. -/
def splice_ult (args : List String) : String :=
  brkt (arg args 1) ++ " < " ++ brkt (arg args 0)

/-- Splicer `Gen.splice_ugte`. -/
def splice_ugte (args : List String) : String :=
  brkt (arg args 1) ++ " >= " ++ brkt (arg args 0)

/-- Splicer `Gen.splice_ugt`. -/
def splice_ugt (args : List String) : String :=
  brkt (arg args 1) ++ " > " ++ brkt (arg args 0)

/-- Splicer `Gen.splice_lshft`. -/
def splice_lshft (args : List String) : String :=
  "(" ++ brkt (arg args 1) ++ " << " ++ brkt (arg args 0) ++ ")"

/-- Splicer `Gen.splice_rshft`. -/
def splice_rshft (args : List String) : String :=
  "(" ++ brkt (arg args 1) ++ " >> " ++ brkt (arg args 0) ++ ")"

/-- Splicer `Gen.splice_uml`. -/
def splice_uml (args : List String) : String :=
  brkt (arg args 1) ++ " * " ++ brkt (arg args 0)

/-- The expression-splicing operator table `self.exp_ops`, in source
insertion order. -/
def expOpsTable : List (String × Nat × (List String → String)) :=
  [("AND", 2, splice_bitwise_and),
   ("UGTE", 2, splice_ugte),
   ("UGT", 2, splice_ugt),
   ("ULTE", 2, splice_ulte),
   ("ULT", 2, splice_ult),
   ("&&", 2, splice_logical_and),
   ("<<", 2, splice_lshft),
   (">>", 2, splice_rshft),
   ("UMUL", 2, splice_uml)]

/-- Membership test / lookup over `self.exp_ops`. -/
def expOpsLookup (nm : String) : Option (Nat × (List String → String)) :=
  (expOpsTable.find? fun e => e.1 = nm).map (·.2)

/-- Operand popping of `Gen.output_rpn_equation_code`: pop `argc` operands
(`args[0]` is the first one popped, the *near* operand), resolving each
operand that begins with a dollar sign; `stack.pop()` on an empty stack is
an `IndexError`, a failed resolution the source's `Exception` naming the
token, the equation, the Set and the Counter. -/
def popArgs (s : SetModel) (c : Counter) (equation : String) :
    Nat → List String → Except PyErr (List String × List String)
  | 0, stk => .ok ([], stk)
  | _ + 1, [] => .error .indexError
  | n + 1, x :: stk =>
    match firstCharIs '$' x with
    | .error e => .error e
    | .ok isDollar =>
      match (if isDollar then
               match resolve_variable s x with
               | some rv => Except.ok rv
               | none => Except.error (PyErr.exception
                   ("Failed to resolve variable " ++ x ++ " in equation " ++ equation ++
                    " for " ++ s.name ++ " :: " ++ c.name))
             else Except.ok x) with
      | .error e => .error e
      | .ok x1 =>
        match popArgs s c equation n stk with
        | .error e => .error e
        | .ok (args, rest) => .ok (x1 :: args, rest)

/-- The inner `while stack and stack[-1] in self.ops` loop of
`Gen.output_rpn_equation_code`.  The fuel argument only serves
termination; every operator has arity 2, so each round shrinks the stack
and a fuel of `stack.length + 1` can never run out (the fuel-exhaustion
branch is unreachable for the table of this source). -/
def runOps (s : SetModel) (c : Counter) (equation : String) :
    Nat → List String → Nat → List String →
    List String × Except PyErr (List String × Nat)
  | 0, _, _, lines => (lines, .error (.exception "operator loop fuel exhausted"))
  | _ + 1, [], tmp_id, lines => (lines, .ok ([], tmp_id))
  | fuel + 1, top :: rest, tmp_id, lines =>
    match opsLookup top with
    | none => (lines, .ok (top :: rest, tmp_id))
    | some (argc, cb) =>
      match popArgs s c equation argc rest with
      | .error e => (lines, .error e)
      | .ok (args, rest1) =>
        let r := cb tmp_id args
        runOps s c equation fuel (("tmp" ++ toString (r.2 - 1)) :: rest1) r.2 (lines ++ r.1)

/-- The `for token in tokens` loop of `Gen.output_rpn_equation_code`:
push the token, then reduce with `runOps`. -/
def runTokens (s : SetModel) (c : Counter) (equation : String) :
    List String → List String → Nat → List String →
    List String × Except PyErr (List String × Nat)
  | [], stack, tmp_id, lines => (lines, .ok (stack, tmp_id))
  | tok :: toks, stack, tmp_id, lines =>
    match runOps s c equation ((tok :: stack).length + 1) (tok :: stack) tmp_id lines with
    | (lines1, .error e) => (lines1, .error e)
    | (lines1, .ok (stack1, tmp1)) => runTokens s c equation toks stack1 tmp1 lines1

/-- Body of `Gen.output_rpn_equation_code` after tokenization.  Returns the
emitted lines (each element one `self.c(...)` call) together with the
outcome.  The final-entry resolution failure mirrors the source exactly:
the `raise` on that path concatenates the undefined Python identifier
`expression`, so the abort is a `NameError`, not the intended
`Exception`. -/
def compile_tokens (s : SetModel) (c : Counter) (equation : String)
    (tokens : List String) : List String × Except PyErr Unit :=
  let lines0 := ["/* RPN equation: " ++ equation ++ " */"]
  match runTokens s c equation tokens [] 0 lines0 with
  | (lines, .error e) => (lines, .error e)
  | (lines, .ok (stack, _)) =>
    match stack with
    | [value] =>
      match firstCharIs '$' value with
      | .error e => (lines, .error e)
      | .ok true =>
        match resolve_variable s value with
        | some rv => (lines ++ ["\nreturn " ++ rv ++ ";"], .ok ())
        | none => (lines, .error (.nameError "expression"))
      | .ok false => (lines ++ ["\nreturn " ++ value ++ ";"], .ok ())
    | _ =>
      (lines, .error (.exception
        ("Spurious empty rpn code for " ++ s.name ++ " :: " ++ c.name ++
         ".\nThis is probably due to some unhandled RPN function, in the equation \"" ++
         equation ++ "\"")))

/-- The statement compiler `Gen.output_rpn_equation_code`. -/
def output_rpn_equation_code (s : SetModel) (c : Counter) (equation : String) :
    List String × Except PyErr Unit :=
  compile_tokens s c equation (pySplit equation)

/-- Operand popping of `Gen.splice_rpn_expression` (the error text differs
from the statement compiler: "in expression", and the counter is a bare
name string). -/
def popExpArgs (s : SetModel) (counter_name expression : String) :
    Nat → List String → Except PyErr (List String × List String)
  | 0, stk => .ok ([], stk)
  | _ + 1, [] => .error .indexError
  | n + 1, x :: stk =>
    match firstCharIs '$' x with
    | .error e => .error e
    | .ok isDollar =>
      match (if isDollar then
               match resolve_variable s x with
               | some rv => Except.ok rv
               | none => Except.error (PyErr.exception
                   ("Failed to resolve variable " ++ x ++ " in expression " ++ expression ++
                    " for " ++ s.name ++ " :: " ++ counter_name))
             else Except.ok x) with
      | .error e => .error e
      | .ok x1 =>
        match popExpArgs s counter_name expression n stk with
        | .error e => .error e
        | .ok (args, rest) => .ok (x1 :: args, rest)

/-- The inner reduction loop of `Gen.splice_rpn_expression`. -/
def runExpOps (s : SetModel) (counter_name expression : String) :
    Nat → List String → Except PyErr (List String)
  | 0, _ => .error (.exception "operator loop fuel exhausted")
  | _ + 1, [] => .ok []
  | fuel + 1, top :: rest =>
    match expOpsLookup top with
    | none => .ok (top :: rest)
    | some (argc, cb) =>
      match popExpArgs s counter_name expression argc rest with
      | .error e => .error e
      | .ok (args, rest1) => runExpOps s counter_name expression fuel (cb args :: rest1)

/-- The token loop of `Gen.splice_rpn_expression`. -/
def runExpTokens (s : SetModel) (counter_name expression : String) :
    List String → List String → Except PyErr (List String)
  | [], stack => .ok stack
  | tok :: toks, stack =>
    match runExpOps s counter_name expression ((tok :: stack).length + 1) (tok :: stack) with
    | .error e => .error e
    | .ok stack1 => runExpTokens s counter_name expression toks stack1

/-- Body of `Gen.splice_rpn_expression` after tokenization. -/
def splice_tokens (s : SetModel) (counter_name expression : String)
    (tokens : List String) : Except PyErr String :=
  match runExpTokens s counter_name expression tokens [] with
  | .error e => .error e
  | .ok stack =>
    match stack with
    | [value] =>
      match firstCharIs '$' value with
      | .error e => .error e
      | .ok true =>
        match resolve_variable s value with
        | some rv => .ok rv
        | none => .error (.exception
            ("Failed to resolve variable " ++ value ++ " in expression " ++ expression ++
             " for " ++ s.name ++ " :: " ++ counter_name))
      | .ok false => .ok value
    | _ =>
      .error (.exception
        ("Spurious empty rpn expression for " ++ s.name ++ " :: " ++ counter_name ++
         ".\nThis is probably due to some unhandled RPN operation, in the expression \"" ++
         expression ++ "\""))

/-- The expression splicer `Gen.splice_rpn_expression`. -/
def splice_rpn_expression (s : SetModel) (counter_name expression : String) :
    Except PyErr String :=
  splice_tokens s counter_name expression (pySplit expression)

/-- The availability emitter `Gen.output_availability`.  Each emitted line
is paired with the indentation (relative to the caller) in effect at its
`self.c(...)` call: the first line at 0, every later line after the
`indent(4)`.  The split is Python `expression.split(' && ')`: every
occurrence of the separator substring splits, parenthesized or not. -/
def output_availability (s : SetModel) (availability counter_name : String) :
    Except PyErr (List (Nat × String)) :=
  match splice_rpn_expression s counter_name availability with
  | .error e => .error e
  | .ok expression =>
    let lines := pySplitOn " && " expression
    if lines.length = 1 then
      .ok [(0, "if (" ++ lines.headD "" ++ ") \x7b")]
    else
      .ok ((0, "if (" ++ lines.headD "" ++ " &&") ::
           ((lines.drop 1).dropLast.map fun l => (4, l ++ " &&")) ++
           [(4, lines.getLastD "" ++ ") \x7b")])

/-- Python truthiness of the optional `max_equation` attribute
(`if max_eq:` is false both for a missing attribute and for `""`). -/
def truthyMax : Option String → Option String
  | none => none
  | some me => if me = "" then none else some me

/-- The token substitution `replace_func` of `Counter.compute_hashes`:
a token that does not begin with a dollar sign, or that names no sibling
counter, passes through; a sibling reference is replaced by that sibling's
(recursively computed) read hash.  `recur` is the recursive hash lookup. -/
def hashReplace (s : SetModel) (recur : Nat → Option String) (tok : String) :
    Option String :=
  if tok.data.head? = some '$' then
    match counterVarsIdx s tok with
    | none => some tok
    | some j => recur j
  else some tok

/-- Option-valued map used to thread a possible fuel exhaustion through the
token substitution of `compute_hashes`. -/
def optMapTokens (g : String → Option String) : List String → Option (List String)
  | [] => some []
  | t :: ts =>
    match g t, optMapTokens g ts with
    | some v, some vs => some (v :: vs)
    | _, _ => none

/-- Hash computation of one counter given the recursive sibling lookup:
substitute every token of the equation, join with single spaces into the
read hash, and do the same for a truthy max-equation. -/
def hashOfCounter (s : SetModel) (recur : Nat → Option String) (c : Counter) :
    Option (String × Option String) :=
  match optMapTokens (hashReplace s recur) (pySplit c.equation) with
  | none => none
  | some rtoks =>
    match truthyMax c.max_equation with
    | none => some (pyJoin " " rtoks, none)
    | some me =>
      match optMapTokens (hashReplace s recur) (pySplit me) with
      | none => none
      | some mtoks => some (pyJoin " " rtoks, some (pyJoin " " mtoks))

/-- Fuel-indexed model of `Counter.compute_hashes` for counter `i` of set
`s`: `some (read_hash, max_hash)` when the recursion over sibling
references finishes within `fuel` nested calls, `none` otherwise.  The
source memoizes instead of taking fuel; on an acyclic reference graph both
compute the same hashes, on a cyclic one the source recurses without
bound. -/
def hashesFuel (s : SetModel) : Nat → Nat → Option (String × Option String)
  | 0, _ => none
  | fuel + 1, i =>
    match s.counters.get? i with
    | none => none
    | some c => hashOfCounter s (fun j => (hashesFuel s fuel j).map Prod.fst) c

/-- The `read_hash` component of `hashesFuel`. -/
def readHashFuel (s : SetModel) (fuel i : Nat) : Option String :=
  (hashesFuel s fuel i).map Prod.fst

/-- The substituted token sequence whose single-space join is the
`read_hash` of counter `i`. -/
def readTokensFuel (s : SetModel) : Nat → Nat → Option (List String)
  | 0, _ => none
  | fuel + 1, i =>
    match s.counters.get? i with
    | none => none
    | some c =>
      optMapTokens (hashReplace s fun j => (hashesFuel s fuel j).map Prod.fst)
        (pySplit c.equation)

/-- Replace the equation of counter `i` (used to state how hashes depend on
the equation text). -/
def updateEq (s : SetModel) (i : Nat) (e : String) : SetModel :=
  match s.counters.get? i with
  | none => s
  | some c =>
    ⟨s.chipset, s.name, s.underscore_name, s.counters.set i { c with equation := e }⟩

/-- Replace the max-equation of counter `i`. -/
def updateMaxEq (s : SetModel) (i : Nat) (me : Option String) : SetModel :=
  match s.counters.get? i with
  | none => s
  | some c =>
    ⟨s.chipset, s.name, s.underscore_name, s.counters.set i { c with max_equation := me }⟩

/-- Counter `i` mentions counter `j`: some token of its equation or of its
(truthy) max-equation resolves to `j` through `counter_vars`.  This is the
relation whose cycles make `compute_hashes` recurse forever. -/
def refersTo (s : SetModel) (i j : Nat) : Bool :=
  match s.counters.get? i with
  | none => false
  | some c =>
    ((pySplit c.equation ++
      (match truthyMax c.max_equation with
       | none => []
       | some me => pySplit me)).any fun t => counterVarsIdx s t = some j)

deriving instance DecidableEq for Except

lemma data_tmp_append (y : String) : ("tmp" ++ y).data = 't' :: 'm' :: 'p' :: y.data := by
  rw [String.data_append]; rfl

lemma firstCharIs_tmp (y : String) : firstCharIs '$' ("tmp" ++ y) = .ok false := by
  unfold firstCharIs
  rw [data_tmp_append]
  rfl

lemma opsLookup_tmp_none (y : String) : opsLookup ("tmp" ++ y) = none := by
  have h : opsTable.find? (fun e => e.1 = "tmp" ++ y) = none := by
    apply List.find?_eq_none.mpr
    intro x hx
    fin_cases hx <;>
      · simp only [decide_eq_true_eq]
        intro h
        have h2 := congrArg String.data h
        rw [data_tmp_append] at h2
        simp at h2
  simp [opsLookup, h]

lemma runOps_noop (s : SetModel) (c : Counter) (e : String) (fuel : Nat)
    (top : String) (rest : List String) (tmp : Nat) (lines : List String)
    (h : opsLookup top = none) :
    runOps s c e (fuel + 1) (top :: rest) tmp lines = (lines, .ok (top :: rest, tmp)) := by
  simp [runOps, h]

lemma runOps_fire (s : SetModel) (c : Counter) (e : String) (fuel : Nat)
    (top : String) (rest rest1 args : List String) (tmp : Nat) (lines : List String)
    (argc : Nat) (cb : Nat → List String → List String × Nat)
    (h : opsLookup top = some (argc, cb))
    (hpop : popArgs s c e argc rest = .ok (args, rest1)) :
    runOps s c e (fuel + 1) (top :: rest) tmp lines =
      runOps s c e fuel (("tmp" ++ toString ((cb tmp args).2 - 1)) :: rest1)
        (cb tmp args).2 (lines ++ (cb tmp args).1) := by
  simp [runOps, h, hpop]

lemma popArgs_two (s : SetModel) (c : Counter) (e : String) (x y : String) (rest : List String)
    (hx : firstCharIs '$' x = .ok false) (hy : firstCharIs '$' y = .ok false) :
    popArgs s c e 2 (x :: y :: rest) = .ok ([x, y], rest) := by
  simp [popArgs, hx, hy]

lemma runTokens_nil (s : SetModel) (c : Counter) (e : String)
    (stack : List String) (tmp : Nat) (lines : List String) :
    runTokens s c e [] stack tmp lines = (lines, .ok (stack, tmp)) := by
  simp [runTokens]

lemma runTokens_cons_ok (s : SetModel) (c : Counter) (e : String)
    (tok : String) (toks stack stack1 : List String) (tmp tmp1 : Nat)
    (lines lines1 : List String)
    (h : runOps s c e (stack.length + 1 + 1) (tok :: stack) tmp lines =
         (lines1, .ok (stack1, tmp1))) :
    runTokens s c e (tok :: toks) stack tmp lines =
      runTokens s c e toks stack1 tmp1 lines1 := by
  simp [runTokens, h]

lemma compile_tokens_ret (s : SetModel) (c : Counter) (eqn : String)
    (toks : List String) (v : String) (tmp : Nat) (lines : List String)
    (hrun : runTokens s c eqn toks [] 0 ["/* RPN equation: " ++ eqn ++ " */"] =
            (lines, .ok ([v], tmp)))
    (hv : firstCharIs '$' v = .ok false) :
    compile_tokens s c eqn toks = (lines ++ ["\nreturn " ++ v ++ ";"], .ok ()) := by
  simp [compile_tokens, hrun, hv]

lemma compile_single_binop (s : SetModel) (c : Counter) (eqn a b nm : String)
    (cb : Nat → List String → List String × Nat)
    (hnm : opsLookup nm = some (2, cb))
    (ha : firstCharIs '$' a = .ok false) (hb : firstCharIs '$' b = .ok false)
    (hna : opsLookup a = none) (hnb : opsLookup b = none) :
    compile_tokens s c eqn [a, b, nm] =
      (["/* RPN equation: " ++ eqn ++ " */"] ++ (cb 0 [b, a]).1 ++
       ["\nreturn tmp" ++ toString ((cb 0 [b, a]).2 - 1) ++ ";"], .ok ()) := by
  have h3 : runOps s c eqn ([b, a].length + 1 + 1) (nm :: [b, a]) 0
      ["/* RPN equation: " ++ eqn ++ " */"] =
      (["/* RPN equation: " ++ eqn ++ " */"] ++ (cb 0 [b, a]).1,
       .ok (["tmp" ++ toString ((cb 0 [b, a]).2 - 1)], (cb 0 [b, a]).2)) :=
    (runOps_fire s c eqn ([b, a].length + 1) nm [b, a] [] [b, a] 0
      ["/* RPN equation: " ++ eqn ++ " */"] 2 cb hnm
      (popArgs_two s c eqn b a [] hb ha)).trans
    (runOps_noop s c eqn [b, a].length _ [] _ _ (opsLookup_tmp_none _))
  have hrun : runTokens s c eqn [a, b, nm] [] 0
      ["/* RPN equation: " ++ eqn ++ " */"] =
      (["/* RPN equation: " ++ eqn ++ " */"] ++ (cb 0 [b, a]).1,
       .ok (["tmp" ++ toString ((cb 0 [b, a]).2 - 1)], (cb 0 [b, a]).2)) :=
    (runTokens_cons_ok s c eqn a [b, nm] [] [a] 0 0 _ _
      (runOps_noop s c eqn (([] : List String).length + 1) a [] 0 _ hna)).trans
    ((runTokens_cons_ok s c eqn b [nm] [a] [b, a] 0 0 _ _
      (runOps_noop s c eqn ([a].length + 1) b [a] 0 _ hnb)).trans
    ((runTokens_cons_ok s c eqn nm [] [b, a] _ 0 _ _ _ h3).trans
    (runTokens_nil s c eqn _ _ _)))
  exact (compile_tokens_ret s c eqn [a, b, nm] _ _ _ hrun (firstCharIs_tmp _))

/-- Statement shapes of the specification's operator table (§4.2), stated
from the spec's wording for comparison with the source emitters: the far
operand (the one pushed earlier, `args[1]`) is placed on the left of the
operator, the near operand (`args[0]`) on the right; the divides
materialize `far` into the first temporary, the divisor `near` into the
second, and guard the division on the divisor temporary. -/
def specStmtLines (op : String) (t : Nat) (far near : String) : List String :=
  if op = "FADD" then
    ["double tmp" ++ toString t ++ " = " ++ far ++ " + " ++ near ++ ";"]
  else if op = "FDIV" then
    ["double tmp" ++ toString t ++ " = " ++ far ++ ";",
     "double tmp" ++ toString (t + 1) ++ " = " ++ near ++ ";",
     "double tmp" ++ toString (t + 2) ++ " = tmp" ++ toString (t + 1) ++
       " ? tmp" ++ toString t ++ " / tmp" ++ toString (t + 1) ++ " : 0;"]
  else if op = "FMAX" then
    ["double tmp" ++ toString t ++ " = " ++ far ++ ";",
     "double tmp" ++ toString (t + 1) ++ " = " ++ near ++ ";",
     "double tmp" ++ toString (t + 2) ++ " = MAX(tmp" ++ toString t ++
       ", tmp" ++ toString (t + 1) ++ ");"]
  else if op = "FMUL" then
    ["double tmp" ++ toString t ++ " = " ++ far ++ " * " ++ near ++ ";"]
  else if op = "FSUB" then
    ["double tmp" ++ toString t ++ " = " ++ far ++ " - " ++ near ++ ";"]
  else if op = "READ" then
    ["uint64_t tmp" ++ toString t ++ " = accumulator[metric_set->" ++
       pyLower far ++ "_offset + " ++ near ++ "];"]
  else if op = "UADD" then
    ["uint64_t tmp" ++ toString t ++ " = " ++ far ++ " + " ++ near ++ ";"]
  else if op = "UDIV" then
    ["uint64_t tmp" ++ toString t ++ " = " ++ far ++ ";",
     "uint64_t tmp" ++ toString (t + 1) ++ " = " ++ near ++ ";",
     "uint64_t tmp" ++ toString (t + 2) ++ " = tmp" ++ toString (t + 1) ++
       " ? tmp" ++ toString t ++ " / tmp" ++ toString (t + 1) ++ " : 0;"]
  else if op = "UMUL" then
    ["uint64_t tmp" ++ toString t ++ " = " ++ far ++ " * " ++ near ++ ";"]
  else if op = "USUB" then
    ["uint64_t tmp" ++ toString t ++ " = " ++ far ++ " - " ++ near ++ ";"]
  else if op = "UMIN" then
    ["uint64_t tmp" ++ toString t ++ " = MIN(" ++ far ++ ", " ++ near ++ ");"]
  else if op = "<<" then
    ["uint64_t tmp" ++ toString t ++ " = " ++ far ++ " << " ++ near ++ ";"]
  else if op = ">>" then
    ["uint64_t tmp" ++ toString t ++ " = " ++ far ++ " >> " ++ near ++ ";"]
  else if op = "AND" then
    ["uint64_t tmp" ++ toString t ++ " = " ++ far ++ " & " ++ near ++ ";"]
  else if op = "UGTE" then
    ["uint64_t tmp" ++ toString t ++ " = " ++ far ++ " >= " ++ near ++ ";"]
  else if op = "UGT" then
    ["uint64_t tmp" ++ toString t ++ " = " ++ far ++ " > " ++ near ++ ";"]
  else if op = "ULTE" then
    ["uint64_t tmp" ++ toString t ++ " = " ++ far ++ " <= " ++ near ++ ";"]
  else if op = "ULT" then
    ["uint64_t tmp" ++ toString t ++ " = " ++ far ++ " < " ++ near ++ ";"]
  else []

/-- Next free temporary id per the specification's operator table. -/
def specNextId (op : String) (t : Nat) : Nat :=
  if op = "FDIV" ∨ op = "FMAX" ∨ op = "UDIV" then t + 3 else t + 1

/-- Fixture counter for concrete witnesses. -/
def demoCounter : Counter := ⟨"Demo Counter", "DemoC", "demo_c", "", none⟩

/-- Fixture set for concrete witnesses. -/
def demoSet : SetModel := ⟨"xehpc", "DemoSet", "demo_set", [demoCounter]⟩

/-- C1: for every entry of the statement-emitting operator table, compiling
the token stream `A B OP` passes the operand pair to the strategy with the
near operand (`B`) at index 0 and the far operand (`A`) at index 1, and the
emitted statements compute `A <op> B` — far on the left — exactly as the
spec's operator table states; the compiled body is the equation comment,
the strategy's statements, and a return of the last temporary. -/
theorem claim_C1 :
    ∀ entry ∈ opsTable, ∀ (s : SetModel) (c : Counter) (eqn a b : String),
      firstCharIs '$' a = .ok false → firstCharIs '$' b = .ok false →
      opsLookup a = none → opsLookup b = none →
      compile_tokens s c eqn [a, b, entry.1] =
        (["/* RPN equation: " ++ eqn ++ " */"] ++ specStmtLines entry.1 0 a b ++
         ["\nreturn tmp" ++ toString (specNextId entry.1 0 - 1) ++ ";"], .ok ()) := by
  intro entry hmem s c eqn a b ha hb hna hnb
  fin_cases hmem
  · exact compile_single_binop s c eqn a b "FADD" emit_fadd rfl ha hb hna hnb
  · exact compile_single_binop s c eqn a b "FDIV" emit_fdiv rfl ha hb hna hnb
  · exact compile_single_binop s c eqn a b "FMAX" emit_fmax rfl ha hb hna hnb
  · exact compile_single_binop s c eqn a b "FMUL" emit_fmul rfl ha hb hna hnb
  · exact compile_single_binop s c eqn a b "FSUB" emit_fsub rfl ha hb hna hnb
  · exact compile_single_binop s c eqn a b "READ" emit_read rfl ha hb hna hnb
  · exact compile_single_binop s c eqn a b "UADD" emit_uadd rfl ha hb hna hnb
  · exact compile_single_binop s c eqn a b "UDIV" emit_udiv rfl ha hb hna hnb
  · exact compile_single_binop s c eqn a b "UMUL" emit_umul rfl ha hb hna hnb
  · exact compile_single_binop s c eqn a b "USUB" emit_usub rfl ha hb hna hnb
  · exact compile_single_binop s c eqn a b "UMIN" emit_umin rfl ha hb hna hnb
  · exact compile_single_binop s c eqn a b "<<" emit_lshft rfl ha hb hna hnb
  · exact compile_single_binop s c eqn a b ">>" emit_rshft rfl ha hb hna hnb
  · exact compile_single_binop s c eqn a b "AND" emit_and rfl ha hb hna hnb
  · exact compile_single_binop s c eqn a b "UGTE" emit_ugte rfl ha hb hna hnb
  · exact compile_single_binop s c eqn a b "UGT" emit_ugt rfl ha hb hna hnb
  · exact compile_single_binop s c eqn a b "ULTE" emit_ulte rfl ha hb hna hnb
  · exact compile_single_binop s c eqn a b "ULT" emit_ult rfl ha hb hna hnb

/-- Witness for C1 at the concrete stream `A B FSUB`: the emitted statement
subtracts B from A, never the other way around. -/
theorem claim_C1_witness :
    ("FSUB", 2, emit_fsub) ∈ opsTable ∧
    firstCharIs '$' "A" = .ok false ∧ firstCharIs '$' "B" = .ok false ∧
    opsLookup "A" = none ∧ opsLookup "B" = none ∧
    compile_tokens demoSet demoCounter "A B FSUB" ["A", "B", "FSUB"] =
      (["/* RPN equation: A B FSUB */", "double tmp0 = A - B;", "\nreturn tmp0;"],
       .ok ()) := by
  refine ⟨?hm, rfl, rfl, rfl, rfl, ?thm⟩
  case hm => unfold opsTable; exact .tail _ (.tail _ (.tail _ (.tail _ (.head _))))
  case thm => exact (claim_C1 ("FSUB", 2, emit_fsub) (by unfold opsTable; exact .tail _ (.tail _ (.tail _ (.tail _ (.head _))))) demoSet demoCounter "A B FSUB" "A" "B" rfl rfl rfl rfl)

/-- Semantics of the guarded-division statement template
`tmpC = tmpB ? tmpA / tmpB : 0` that `emit_fdiv` / `emit_udiv` emit: a C
conditional on the divisor selects the literal 0 when the divisor is zero,
so no division executes on a zero divisor. -/
def guardedDiv (x b : Nat) : Nat := if b = 0 then 0 else x / b

/-- C2: the floating and unsigned divide strategies emit exactly three
statements — far materialized into the first temporary, the near divisor
into the second, then a division guarded on the divisor temporary — the
third statement mentions the operands only through temporaries (it is
independent of the operand expressions), and the guarded template yields
zero on a zero divisor. -/
theorem claim_C2 :
    ∀ (t : Nat) (near far : String),
      emit_fdiv t [near, far] =
        (["double tmp" ++ toString t ++ " = " ++ far ++ ";",
          "double tmp" ++ toString (t + 1) ++ " = " ++ near ++ ";",
          "double tmp" ++ toString (t + 2) ++ " = tmp" ++ toString (t + 1) ++
            " ? tmp" ++ toString t ++ " / tmp" ++ toString (t + 1) ++ " : 0;"], t + 3) ∧
      emit_udiv t [near, far] =
        (["uint64_t tmp" ++ toString t ++ " = " ++ far ++ ";",
          "uint64_t tmp" ++ toString (t + 1) ++ " = " ++ near ++ ";",
          "uint64_t tmp" ++ toString (t + 2) ++ " = tmp" ++ toString (t + 1) ++
            " ? tmp" ++ toString t ++ " / tmp" ++ toString (t + 1) ++ " : 0;"], t + 3) ∧
      (∀ near2 far2 : String,
        (emit_fdiv t [near, far]).1.getD 2 "" = (emit_fdiv t [near2, far2]).1.getD 2 "" ∧
        (emit_udiv t [near, far]).1.getD 2 "" = (emit_udiv t [near2, far2]).1.getD 2 "") ∧
      (∀ x : Nat, guardedDiv x 0 = 0) :=
  fun _ _ _ =>
    ⟨rfl, rfl, fun _ _ => ⟨rfl, rfl⟩, fun x => by simp [guardedDiv]⟩

/-- C4 failing case: the equation `$Unknown` leaves the unresolved token as
the single remaining stack entry; the source then evaluates the undefined
Python identifier `expression` while building its error message, so the
abort is a `NameError` that names neither the token, the equation, the Set
nor the Counter — not the `Exception` the claim (and the in-loop path)
promise. -/
theorem claim_C4_bug_eval :
    resolve_variable demoSet "$Unknown" = none ∧
    (output_rpn_equation_code demoSet demoCounter "$Unknown").2 =
      .error (.nameError "expression") ∧
    (∀ msg : String,
      (output_rpn_equation_code demoSet demoCounter "$Unknown").2 ≠
        .error (.exception msg)) := by
  refine ⟨by decide, by decide, ?_⟩
  intro msg h
  rw [show (output_rpn_equation_code demoSet demoCounter "$Unknown").2 =
        .error (.nameError "expression") from by decide] at h
  simp at h

/-- C5: in both stack machines, a final operand-stack depth different from
one aborts with the "spurious empty" diagnostic naming the Set, the
Counter and the offending equation or expression text, and the return
value / result expression is not emitted (for the statement compiler, the
emitted output stays exactly the lines produced before the check). -/
theorem claim_C5 :
    (∀ (s : SetModel) (c : Counter) (eqn : String) (stk : List String) (tmp : Nat)
       (lines : List String),
       runTokens s c eqn (pySplit eqn) [] 0 ["/* RPN equation: " ++ eqn ++ " */"] =
         (lines, .ok (stk, tmp)) →
       stk.length ≠ 1 →
       output_rpn_equation_code s c eqn =
         (lines, .error (.exception ("Spurious empty rpn code for " ++ s.name ++ " :: " ++
           c.name ++ ".\nThis is probably due to some unhandled RPN function, in the equation \"" ++
           eqn ++ "\"")))) ∧
    (∀ (s : SetModel) (cname expr : String) (stk : List String),
       runExpTokens s cname expr (pySplit expr) [] = .ok stk →
       stk.length ≠ 1 →
       splice_rpn_expression s cname expr =
         .error (.exception ("Spurious empty rpn expression for " ++ s.name ++ " :: " ++
           cname ++ ".\nThis is probably due to some unhandled RPN operation, in the expression \"" ++
           expr ++ "\""))) := by
  constructor
  · intro s c eqn stk tmp lines h hlen
    simp only [output_rpn_equation_code, compile_tokens]
    rw [h]
    rcases stk with _ | ⟨v, _ | ⟨w, rest⟩⟩
    · rfl
    · simp at hlen
    · rfl
  · intro s cname expr stk h hlen
    simp only [splice_rpn_expression, splice_tokens]
    rw [h]
    rcases stk with _ | ⟨v, _ | ⟨w, rest⟩⟩
    · rfl
    · simp at hlen
    · rfl

/-- Witness for C5 at the two-token equation and expression `A B`. -/
theorem claim_C5_witness :
    (runTokens demoSet demoCounter "A B" (pySplit "A B") [] 0
       ["/* RPN equation: A B */"] =
       (["/* RPN equation: A B */"], .ok (["B", "A"], 0)) ∧
     output_rpn_equation_code demoSet demoCounter "A B" =
       (["/* RPN equation: A B */"],
        .error (.exception ("Spurious empty rpn code for DemoSet :: Demo Counter" ++
          ".\nThis is probably due to some unhandled RPN function, in the equation \"A B\"")))) ∧
    (runExpTokens demoSet "counterX" "A B" (pySplit "A B") [] = .ok ["B", "A"] ∧
     splice_rpn_expression demoSet "counterX" "A B" =
       .error (.exception ("Spurious empty rpn expression for DemoSet :: counterX" ++
         ".\nThis is probably due to some unhandled RPN operation, in the expression \"A B\""))) := by
  refine ⟨⟨by decide, ?p1⟩, ⟨by decide, ?p2⟩⟩
  case p1 => exact (claim_C5.1 demoSet demoCounter "A B" ["B", "A"] 0
      ["/* RPN equation: A B */"] (by decide) (by decide))
  case p2 => exact (claim_C5.2 demoSet "counterX" "A B" ["B", "A"] (by decide) (by decide))

/-- Join of character-lists with a separator (bridge for `pyJoin` proofs). -/
def joinSep (sep : List Char) : List (List Char) → List Char
  | [] => []
  | [x] => x
  | x :: y :: xs => x ++ sep ++ joinSep sep (y :: xs)

lemma strDataInj {a b : String} (h : a.data = b.data) : a = b := by
  cases a; cases b; exact congrArg String.mk h

lemma pyJoin_data (sep : String) :
    ∀ L : List (List Char),
      (pyJoin sep (L.map fun cl => (⟨cl⟩ : String))).data = joinSep sep.data L := by
  intro L
  induction L with
  | nil => rfl
  | cons x xs ih =>
    cases xs with
    | nil => rfl
    | cons y ys =>
      simp only [List.map, pyJoin, joinSep, String.data_append]
      rw [← List.map, ih]

lemma dropLit_append : ∀ (p l r : List Char), dropLit p l = some r → l = p ++ r := by
  intro p
  induction p with
  | nil => intro l r h; simp [dropLit] at h; simp [h]
  | cons q qs ih =>
    intro l r h
    cases l with
    | nil => simp [dropLit] at h
    | cons c cs =>
      by_cases hc : c = q
      · simp [dropLit, hc] at h
        simpa [hc] using ih cs r h
      · simp [dropLit, hc] at h

lemma splitSepChars_ne_nil (sep : List Char) :
    ∀ (fuel : Nat) (l cur : List Char), splitSepChars sep fuel l cur ≠ [] := by
  intro fuel
  induction fuel with
  | zero => intro l cur; cases l <;> simp [splitSepChars]
  | succ f ih =>
    intro l cur
    cases l with
    | nil => simp [splitSepChars]
    | cons c cs =>
      simp only [splitSepChars]
      cases dropLit sep (c :: cs) with
      | none => exact ih cs (c :: cur)
      | some rest => simp

lemma joinSep_cons (sep x : List Char) (L : List (List Char)) (h : L ≠ []) :
    joinSep sep (x :: L) = x ++ sep ++ joinSep sep L := by
  cases L with
  | nil => exact absurd rfl h
  | cons y ys => rfl

lemma splitSep_join (sep : List Char) (hsep : sep ≠ []) :
    ∀ (fuel : Nat) (l cur : List Char), l.length ≤ fuel →
      joinSep sep (splitSepChars sep fuel l cur) = cur.reverse ++ l := by
  intro fuel
  induction fuel with
  | zero =>
    intro l cur hl
    have : l = [] := by cases l with
      | nil => rfl
      | cons c cs => simp at hl
    subst this
    simp [splitSepChars, joinSep]
  | succ f ih =>
    intro l cur hl
    cases l with
    | nil => simp [splitSepChars, joinSep]
    | cons c cs =>
      simp only [splitSepChars]
      cases hdl : dropLit sep (c :: cs) with
      | none =>
        rw [ih cs (c :: cur) (by simpa using Nat.le_of_succ_le_succ hl)]
        simp
      | some rest =>
        have hdec : (c :: cs) = sep ++ rest := dropLit_append sep (c :: cs) rest hdl
        have hlen : rest.length ≤ f := by
          have h1 := congrArg List.length hdec
          simp at h1
          cases sep with
          | nil => exact absurd rfl hsep
          | cons s0 ss =>
            simp at h1
            simp at hl
            omega
        rw [joinSep_cons sep cur.reverse _ (splitSepChars_ne_nil sep f rest []),
            ih rest [] hlen]
        simp [hdec]

lemma pySplitOn_join (sep s : String) (hsep : sep.data ≠ []) :
    pyJoin sep (pySplitOn sep s) = s := by
  apply strDataInj
  rw [pySplitOn, pyJoin_data,
      splitSep_join sep.data hsep s.data.length s.data [] (le_refl _)]
  simp

lemma pySplitOn_ne_nil (sep s : String) : pySplitOn sep s ≠ [] := by
  simp only [pySplitOn, ne_eq, List.map_eq_nil_iff]
  exact splitSepChars_ne_nil sep.data s.data.length s.data []

/-- Formatting rule of the Availability Emitter as the specification words
it, applied to the list of split terms: one term gives a single `if`
line; more terms give a first line `if (<t1> &&`, indented middle lines
each ending in ` &&`, and an indented final line closing with the brace. -/
def availSpec : List String → List (Nat × String)
  | [] => []
  | [t] => [(0, "if (" ++ t ++ ") \x7b")]
  | t :: ts =>
    (0, "if (" ++ t ++ " &&") ::
      ((ts.dropLast.map fun m => (4, m ++ " &&")) ++
       [(4, ts.getLastD "" ++ ") \x7b")])

/-- C3 (amended): the Availability Emitter splits the spliced expression at
every occurrence of the literal connective substring (the terms re-join to
the original expression, so the cuts are exactly those occurrences,
including any inside nested parentheses), and emits one line per term in
the spec's `if (..` / indented `.. &&` / `..) \x7b` shape. -/
theorem claim_C3_amended_split_everywhere :
    ∀ (s : SetModel) (avail cname expr : String),
      splice_rpn_expression s cname avail = .ok expr →
      output_availability s avail cname = .ok (availSpec (pySplitOn " && " expr)) ∧
      (availSpec (pySplitOn " && " expr)).length = (pySplitOn " && " expr).length ∧
      pyJoin " && " (pySplitOn " && " expr) = expr := by
  intro s avail cname expr h
  refine ⟨?fmt, ?len, pySplitOn_join " && " expr (by decide)⟩
  case fmt =>
    rcases hsplit : pySplitOn " && " expr with _ | ⟨t, _ | ⟨u, ts⟩⟩
    · exact absurd hsplit (pySplitOn_ne_nil " && " expr)
    · simp [output_availability, h, hsplit, availSpec]
    · simp [output_availability, h, hsplit, availSpec, List.getLastD_cons]
  case len =>
    rcases hsplit : pySplitOn " && " expr with _ | ⟨t, _ | ⟨u, ts⟩⟩
    · simp [hsplit, availSpec]
    · simp [hsplit, availSpec]
    · simp [hsplit, availSpec]

/-- Witness for the amended C3 at the availability expression `A B &&`. -/
theorem claim_C3_amended_witness :
    splice_rpn_expression demoSet "counterX" "A B &&" = .ok "A && B" ∧
    output_availability demoSet "A B &&" "counterX" =
      .ok (availSpec (pySplitOn " && " "A && B")) ∧
    availSpec (pySplitOn " && " "A && B") =
      [(0, "if (A &&"), (4, "B) \x7b")] := by
  refine ⟨by decide, ?_, by decide⟩
  exact (claim_C3_amended_split_everywhere demoSet "A B &&" "counterX" "A && B"
    (by decide)).1

/-- Counterexample to C3 as stated: the spliced expression
`(A && B) & C` (obtained from the availability RPN `A B && C AND`) has a
single top-level term — its only logical-and connective sits inside a
parenthesized subexpression — yet the emitter splits inside the
parentheses and emits two lines instead of the claimed single
`if (<term>) \x7b` line. -/
theorem claim_C3_counterexample :
    splice_rpn_expression demoSet "counterX" "A B && C AND" = .ok "(A && B) & C" ∧
    output_availability demoSet "A B && C AND" "counterX" =
      .ok [(0, "if ((A &&"), (4, "B) & C) \x7b")] ∧
    output_availability demoSet "A B && C AND" "counterX" ≠
      .ok [(0, "if ((A && B) & C) \x7b")] := by
  exact ⟨by decide, by decide, by decide⟩

/-- Embedding rule of the Expression Splicer as the specification words it:
a composite (space-containing) operand is wrapped in parentheses, a
single-token operand is embedded bare. -/
def specEmbed (operand : String) : String :=
  if operand.data.contains ' ' then "(" ++ operand ++ ")" else operand

/-- Fragment shapes of the specification's splicing table, far operand
(`args[1]`) on the left, both operands embedded via the spec's rule. -/
def specSpliceResult (op : String) (far near : String) : String :=
  if op = "AND" then specEmbed far ++ " & " ++ specEmbed near
  else if op = "UGTE" then specEmbed far ++ " >= " ++ specEmbed near
  else if op = "UGT" then specEmbed far ++ " > " ++ specEmbed near
  else if op = "ULTE" then specEmbed far ++ " <= " ++ specEmbed near
  else if op = "ULT" then specEmbed far ++ " < " ++ specEmbed near
  else if op = "&&" then specEmbed far ++ " && " ++ specEmbed near
  else if op = "<<" then "(" ++ specEmbed far ++ " << " ++ specEmbed near ++ ")"
  else if op = ">>" then "(" ++ specEmbed far ++ " >> " ++ specEmbed near ++ ")"
  else if op = "UMUL" then specEmbed far ++ " * " ++ specEmbed near
  else ""

lemma runExpOps_noop (s : SetModel) (cname e : String) (fuel : Nat)
    (top : String) (rest : List String) (h : expOpsLookup top = none) :
    runExpOps s cname e (fuel + 1) (top :: rest) = .ok (top :: rest) := by
  simp [runExpOps, h]

lemma runExpOps_fire (s : SetModel) (cname e : String) (fuel : Nat)
    (top : String) (rest rest1 args : List String) (argc : Nat)
    (cb : List String → String)
    (h : expOpsLookup top = some (argc, cb))
    (hpop : popExpArgs s cname e argc rest = .ok (args, rest1)) :
    runExpOps s cname e (fuel + 1) (top :: rest) =
      runExpOps s cname e fuel (cb args :: rest1) := by
  simp [runExpOps, h, hpop]

lemma popExpArgs_two_res (s : SetModel) (cname e : String) (x y rx ry : String)
    (rest : List String)
    (hx : firstCharIs '$' x = .ok true) (hrx : resolve_variable s x = some rx)
    (hy : firstCharIs '$' y = .ok true) (hry : resolve_variable s y = some ry) :
    popExpArgs s cname e 2 (x :: y :: rest) = .ok ([rx, ry], rest) := by
  simp [popExpArgs, hx, hy, hrx, hry]

lemma runExpTokens_nil (s : SetModel) (cname e : String) (stack : List String) :
    runExpTokens s cname e [] stack = .ok stack := by
  simp [runExpTokens]

lemma runExpTokens_cons_ok (s : SetModel) (cname e : String) (tok : String)
    (toks stack stack1 : List String)
    (h : runExpOps s cname e (stack.length + 1 + 1) (tok :: stack) = .ok stack1) :
    runExpTokens s cname e (tok :: toks) stack = runExpTokens s cname e toks stack1 := by
  simp [runExpTokens, h]

lemma splice_tokens_ret (s : SetModel) (cname e : String) (toks : List String)
    (v : String)
    (hrun : runExpTokens s cname e toks [] = .ok [v])
    (hv : firstCharIs '$' v = .ok false) :
    splice_tokens s cname e toks = .ok v := by
  simp [splice_tokens, hrun, hv]

lemma firstCharIs_append (ch : Char) (a b : String) (v : Bool)
    (h : firstCharIs ch a = .ok v) : firstCharIs ch (a ++ b) = .ok v := by
  unfold firstCharIs at h ⊢
  rw [String.data_append]
  cases ha : a.data with
  | nil => rw [ha] at h; simp at h
  | cons c cs => rw [ha] at h; simpa using h

lemma firstCharIs_paren (rest : String) : firstCharIs '$' ("(" ++ rest) = .ok false := by
  unfold firstCharIs
  rw [String.data_append]
  rfl

lemma space_in_and (x y : String) : ' ' ∈ (x ++ " & " ++ y).data := by
  rw [String.data_append, String.data_append]
  exact List.mem_append_left _ (List.mem_append_right _ (by decide))

lemma expOpsLookup_space_none (v : String) (hv : ' ' ∈ v.data) :
    expOpsLookup v = none := by
  have h : expOpsTable.find? (fun e => e.1 = v) = none := by
    apply List.find?_eq_none.mpr
    intro x hx
    fin_cases hx <;>
      · simp only [decide_eq_true_eq]
        intro h
        rw [← h] at hv
        exact absurd hv (by decide)
  simp [expOpsLookup, h]

lemma splice_two_resolved (s : SetModel) (cname expr tA tB ra rb op : String)
    (cb : List String → String)
    (hop : expOpsLookup op = some (2, cb))
    (hta : firstCharIs '$' tA = .ok true) (htb : firstCharIs '$' tB = .ok true)
    (hra : resolve_variable s tA = some ra) (hrb : resolve_variable s tB = some rb)
    (hna : expOpsLookup tA = none) (hnb : expOpsLookup tB = none)
    (hsp : expOpsLookup (cb [rb, ra]) = none)
    (hfc : firstCharIs '$' (cb [rb, ra]) = .ok false) :
    splice_tokens s cname expr [tA, tB, op] = .ok (cb [rb, ra]) := by
  have h3 : runExpOps s cname expr ([tB, tA].length + 1 + 1) (op :: [tB, tA]) =
      .ok [cb [rb, ra]] :=
    (runExpOps_fire s cname expr ([tB, tA].length + 1) op [tB, tA] [] [rb, ra] 2 cb hop
      (popExpArgs_two_res s cname expr tB tA rb ra [] htb hrb hta hra)).trans
    (runExpOps_noop s cname expr [tB, tA].length _ [] hsp)
  have hrun : runExpTokens s cname expr [tA, tB, op] [] = .ok [cb [rb, ra]] :=
    (runExpTokens_cons_ok s cname expr tA [tB, op] [] [tA]
      (runExpOps_noop s cname expr (([] : List String).length + 1) tA [] hna)).trans
    ((runExpTokens_cons_ok s cname expr tB [op] [tA] [tB, tA]
      (runExpOps_noop s cname expr ([tA].length + 1) tB [tA] hnb)).trans
    ((runExpTokens_cons_ok s cname expr op [] [tB, tA] _ h3).trans
    (runExpTokens_nil s cname expr _)))
  exact splice_tokens_ret s cname expr [tA, tB, op] _ hrun hfc

lemma brkt_of_space {r : String} (h : ' ' ∈ r.data) : brkt r = "(" ++ r ++ ")" := by
  unfold brkt
  rw [if_pos]
  exact List.elem_iff.mpr h

lemma brkt_no_space {r : String} (h : ' ' ∉ r.data) : brkt r = r := by
  unfold brkt
  rw [if_neg]
  intro hc
  exact h (List.elem_iff.mp hc)

/-- C6: every splicing strategy embeds each operand through the
parenthesize-composites / embed-singles rule with the far operand on the
left (the table part); splicing `$A $B AND` where both operands resolve to
composite (space-containing) accessor expressions parenthesizes both, and
where both resolve to single tokens yields the bare conjunction with no
parenthesis characters introduced. -/
theorem claim_C6 :
    (∀ entry ∈ expOpsTable, ∀ x y : String,
       entry.2.2 [x, y] = specSpliceResult entry.1 y x) ∧
    (∀ (s : SetModel) (cname expr tA tB ra rb : String),
       firstCharIs '$' tA = .ok true → firstCharIs '$' tB = .ok true →
       resolve_variable s tA = some ra → resolve_variable s tB = some rb →
       expOpsLookup tA = none → expOpsLookup tB = none →
       ' ' ∈ ra.data → ' ' ∈ rb.data →
       splice_tokens s cname expr [tA, tB, "AND"] =
         .ok ("(" ++ ra ++ ")" ++ " & " ++ ("(" ++ rb ++ ")"))) ∧
    (∀ (s : SetModel) (cname expr tA tB ra rb : String),
       firstCharIs '$' tA = .ok true → firstCharIs '$' tB = .ok true →
       resolve_variable s tA = some ra → resolve_variable s tB = some rb →
       expOpsLookup tA = none → expOpsLookup tB = none →
       ' ' ∉ ra.data → ' ' ∉ rb.data →
       firstCharIs '$' ra = .ok false →
       splice_tokens s cname expr [tA, tB, "AND"] = .ok (ra ++ " & " ++ rb) ∧
       ('(' ∉ ra.data → '(' ∉ rb.data → '(' ∉ (ra ++ " & " ++ rb).data) ∧
       (')' ∉ ra.data → ')' ∉ rb.data → ')' ∉ (ra ++ " & " ++ rb).data)) := by
  refine ⟨?tbl, ?multi, ?single⟩
  case tbl =>
    intro entry hmem x y
    fin_cases hmem <;> rfl
  case multi =>
    intro s cname expr tA tB ra rb hta htb hra hrb hna hnb hspa hspb
    have hand : splice_bitwise_and [rb, ra] = brkt ra ++ " & " ++ brkt rb := rfl
    have hsp : expOpsLookup (splice_bitwise_and [rb, ra]) = none := by
      apply expOpsLookup_space_none
      rw [hand]
      exact space_in_and _ _
    have hfc : firstCharIs '$' (splice_bitwise_and [rb, ra]) = .ok false := by
      rw [hand, brkt_of_space hspa]
      exact firstCharIs_append _ _ _ _ (firstCharIs_append _ _ _ _ (firstCharIs_paren ra))
    have base := splice_two_resolved s cname expr tA tB ra rb "AND"
      splice_bitwise_and rfl hta htb hra hrb hna hnb hsp hfc
    rw [hand, brkt_of_space hspa, brkt_of_space hspb] at base
    exact base
  case single =>
    intro s cname expr tA tB ra rb hta htb hra hrb hna hnb hspa hspb hfra
    have hand : splice_bitwise_and [rb, ra] = brkt ra ++ " & " ++ brkt rb := rfl
    have hsp : expOpsLookup (splice_bitwise_and [rb, ra]) = none := by
      apply expOpsLookup_space_none
      rw [hand]
      exact space_in_and _ _
    have hfc : firstCharIs '$' (splice_bitwise_and [rb, ra]) = .ok false := by
      rw [hand, brkt_no_space hspa]
      exact firstCharIs_append _ _ _ _ (firstCharIs_append _ _ _ _ hfra)
    have base := splice_two_resolved s cname expr tA tB ra rb "AND"
      splice_bitwise_and rfl hta htb hra hrb hna hnb hsp hfc
    rw [hand, brkt_no_space hspa, brkt_no_space hspb] at base
    refine ⟨base, ?_, ?_⟩
    · intro h1 h2
      simp [String.data_append, h1, h2]
    · intro h1 h2
      simp [String.data_append, h1, h2]

/-- Witness for C6: `$GtSlice1` and `$GtSlice2` resolve to composite
accessor calls and get parenthesized; `$EuCoresTotalCount` and
`$SliceMask` resolve to single tokens and are embedded bare. -/
theorem claim_C6_witness :
    (resolve_variable demoSet "$GtSlice1" =
       some "intel_xe_perf_devinfo_slice_available(&perf->devinfo, 1)" ∧
     splice_tokens demoSet "counterX" "$GtSlice1 $GtSlice2 AND"
       ["$GtSlice1", "$GtSlice2", "AND"] =
       .ok ("(" ++ "intel_xe_perf_devinfo_slice_available(&perf->devinfo, 1)" ++ ")" ++
            " & " ++
            ("(" ++ "intel_xe_perf_devinfo_slice_available(&perf->devinfo, 2)" ++ ")"))) ∧
    (resolve_variable demoSet "$EuCoresTotalCount" = some "perf->devinfo.n_eus" ∧
     splice_tokens demoSet "counterX" "$EuCoresTotalCount $SliceMask AND"
       ["$EuCoresTotalCount", "$SliceMask", "AND"] =
       .ok ("perf->devinfo.n_eus" ++ " & " ++ "perf->devinfo.slice_mask")) := by
  refine ⟨⟨by decide, ?m⟩, ⟨by decide, ?s⟩⟩
  case m => exact (claim_C6.2.1 demoSet "counterX" "$GtSlice1 $GtSlice2 AND"
    "$GtSlice1" "$GtSlice2" _ _ (by decide) (by decide) (by decide) (by decide)
    rfl rfl (by decide) (by decide))
  case s => exact ((claim_C6.2.2 demoSet "counterX" "$EuCoresTotalCount $SliceMask AND"
    "$EuCoresTotalCount" "$SliceMask" _ _ (by decide) (by decide) (by decide)
    (by decide) rfl rfl (by decide) (by decide) (by decide)).1)

lemma opsLookup_mem (nm : String) (e : Nat × (Nat → List String → List String × Nat))
    (h : opsLookup nm = some e) : (nm, e) ∈ opsTable := by
  unfold opsLookup at h
  cases hf : opsTable.find? (fun x => x.1 = nm) with
  | none => rw [hf] at h; simp at h
  | some x =>
    rw [hf] at h
    simp at h
    have hx := List.mem_of_find?_eq_some hf
    have hp := List.find?_some hf
    simp at hp
    rw [← h, ← hp]
    simpa using hx

lemma table_cb_le (e : String × Nat × (Nat → List String → List String × Nat))
    (hmem : e ∈ opsTable) : ∀ (t : Nat) (args : List String), t ≤ (e.2.2 t args).2 := by
  fin_cases hmem <;>
    · intro t args
      simp only [emit_fadd, emit_fdiv, emit_fmax, emit_fmul, emit_fsub, emit_read,
        emit_uadd, emit_udiv, emit_umul, emit_usub, emit_umin, emit_lshft, emit_rshft,
        emit_and, emit_ugte, emit_ugt, emit_ulte, emit_ult]
      omega

lemma runOps_mono :
    ∀ (fuel : Nat) (s : SetModel) (c : Counter) (e : String) (stack : List String)
      (tmp : Nat) (lines lines1 : List String) (stk1 : List String) (tmp1 : Nat),
      runOps s c e fuel stack tmp lines = (lines1, .ok (stk1, tmp1)) → tmp ≤ tmp1 := by
  intro fuel
  induction fuel with
  | zero =>
    intro s c e stack tmp lines lines1 stk1 tmp1 h
    simp [runOps] at h
  | succ f ih =>
    intro s c e stack tmp lines lines1 stk1 tmp1 h
    cases stack with
    | nil =>
      simp [runOps] at h
      omega
    | cons top rest =>
      cases hop : opsLookup top with
      | none =>
        simp [runOps, hop] at h
        omega
      | some e2 =>
        obtain ⟨argc, cb⟩ := e2
        cases hpop : popArgs s c e argc rest with
        | error er =>
          simp [runOps, hop, hpop] at h
        | ok pr =>
          obtain ⟨args, rest1⟩ := pr
          simp only [runOps, hop, hpop] at h
          have h1 := ih s c e _ _ _ _ _ _ h
          have h2 : tmp ≤ (cb tmp args).2 :=
            table_cb_le (top, argc, cb) (opsLookup_mem top (argc, cb) hop) tmp args
          omega

lemma runTokens_mono :
    ∀ (toks : List String) (s : SetModel) (c : Counter) (e : String)
      (stack : List String) (tmp : Nat) (lines lines1 : List String)
      (stk1 : List String) (tmp1 : Nat),
      runTokens s c e toks stack tmp lines = (lines1, .ok (stk1, tmp1)) → tmp ≤ tmp1 := by
  intro toks
  induction toks with
  | nil =>
    intro s c e stack tmp lines lines1 stk1 tmp1 h
    simp [runTokens] at h
    omega
  | cons tok toks ih =>
    intro s c e stack tmp lines lines1 stk1 tmp1 h
    simp only [runTokens] at h
    cases hro : runOps s c e ((tok :: stack).length + 1) (tok :: stack) tmp lines with
    | mk l1 r =>
      rw [hro] at h
      cases r with
      | error er => simp at h
      | ok p =>
        obtain ⟨stk2, tmp2⟩ := p
        simp only at h
        exact Nat.le_trans (runOps_mono _ s c e _ _ _ _ _ _ hro) (ih s c e _ _ _ _ _ _ h)

/-- C9: every emission strategy invoked with free id `t` returns
`t + k` for its `k` emitted statements (`k` at least 1), each statement
defining the sequentially-numbered temporary `tmp(t+i)`; the compiler
pushes exactly the name of the last temporary produced (`tmp(returned-1)`)
back on the stack; and the temporary counter never decreases over a run,
so ids are never reused or reset within one counter's body. -/
theorem claim_C9 :
    (∀ entry ∈ opsTable, ∀ (t : Nat) (x y : String),
       (entry.2.2 t [x, y]).2 = t + (entry.2.2 t [x, y]).1.length ∧
       1 ≤ (entry.2.2 t [x, y]).1.length ∧
       ∀ k, k < (entry.2.2 t [x, y]).1.length → ∃ rest,
         (entry.2.2 t [x, y]).1.getD k "" =
           "double tmp" ++ toString (t + k) ++ " = " ++ rest ∨
         (entry.2.2 t [x, y]).1.getD k "" =
           "uint64_t tmp" ++ toString (t + k) ++ " = " ++ rest) ∧
    (∀ (s : SetModel) (c : Counter) (e : String) (fuel : Nat) (top : String)
       (rest rest1 args : List String) (tmp : Nat) (lines : List String)
       (argc : Nat) (cb : Nat → List String → List String × Nat),
       opsLookup top = some (argc, cb) →
       popArgs s c e argc rest = .ok (args, rest1) →
       runOps s c e (fuel + 1) (top :: rest) tmp lines =
         runOps s c e fuel (("tmp" ++ toString ((cb tmp args).2 - 1)) :: rest1)
           (cb tmp args).2 (lines ++ (cb tmp args).1)) ∧
    (∀ (toks : List String) (s : SetModel) (c : Counter) (e : String)
       (stack : List String) (tmp : Nat) (lines lines1 : List String)
       (stk1 : List String) (tmp1 : Nat),
       runTokens s c e toks stack tmp lines = (lines1, .ok (stk1, tmp1)) →
       tmp ≤ tmp1) := by
  refine ⟨?ids, ?push, ?mono⟩
  case push =>
    intro s c e fuel top rest rest1 args tmp lines argc cb h hpop
    exact runOps_fire s c e fuel top rest rest1 args tmp lines argc cb h hpop
  case mono =>
    intro toks s c e stack tmp lines lines1 stk1 tmp1 h
    exact runTokens_mono toks s c e stack tmp lines lines1 stk1 tmp1 h
  case ids =>
    intro entry hmem t x y
    fin_cases hmem
    · refine ⟨rfl, by simp [emit_fadd], ?_⟩
      intro k hk
      have hkb : k < 1 := hk
      interval_cases k
      exact ⟨y ++ " + " ++ x ++ ";", Or.inl (by
        rw [show (("FADD", 2, emit_fadd).2.2 t [x, y]).1.getD 0 "" =
            "double tmp" ++ toString t ++ " = " ++ y ++ " + " ++ x ++ ";" from rfl]
        simp [String.append_assoc])⟩
    · refine ⟨rfl, by simp [emit_fdiv], ?_⟩
      intro k hk
      have hkb : k < 3 := hk
      interval_cases k
      · exact ⟨y ++ ";", Or.inl (by
          rw [show (("FDIV", 2, emit_fdiv).2.2 t [x, y]).1.getD 0 "" =
              "double tmp" ++ toString t ++ " = " ++ y ++ ";" from rfl]
          simp [String.append_assoc])⟩
      · exact ⟨x ++ ";", Or.inl (by
          rw [show (("FDIV", 2, emit_fdiv).2.2 t [x, y]).1.getD 1 "" =
              "double tmp" ++ toString (t + 1) ++ " = " ++ x ++ ";" from rfl]
          simp [String.append_assoc])⟩
      · exact ⟨"tmp" ++ toString (t + 1) ++ " ? tmp" ++ toString t ++ " / tmp" ++
            toString (t + 1) ++ " : 0;", Or.inl (by
          rw [show (("FDIV", 2, emit_fdiv).2.2 t [x, y]).1.getD 2 "" =
              "double tmp" ++ toString (t + 2) ++ " = tmp" ++ toString (t + 1) ++ " ? tmp" ++
              toString t ++ " / tmp" ++ toString (t + 1) ++ " : 0;" from rfl]
          simp [String.append_assoc]
          rw [show (" = tmp" : String) = " = " ++ "tmp" from rfl, String.append_assoc])⟩
    · refine ⟨rfl, by simp [emit_fmax], ?_⟩
      intro k hk
      have hkb : k < 3 := hk
      interval_cases k
      · exact ⟨y ++ ";", Or.inl (by
          rw [show (("FMAX", 2, emit_fmax).2.2 t [x, y]).1.getD 0 "" =
              "double tmp" ++ toString t ++ " = " ++ y ++ ";" from rfl]
          simp [String.append_assoc])⟩
      · exact ⟨x ++ ";", Or.inl (by
          rw [show (("FMAX", 2, emit_fmax).2.2 t [x, y]).1.getD 1 "" =
              "double tmp" ++ toString (t + 1) ++ " = " ++ x ++ ";" from rfl]
          simp [String.append_assoc])⟩
      · exact ⟨"MAX(tmp" ++ toString t ++ ", tmp" ++ toString (t + 1) ++ ");", Or.inl (by
          rw [show (("FMAX", 2, emit_fmax).2.2 t [x, y]).1.getD 2 "" =
              "double tmp" ++ toString (t + 2) ++ " = MAX(tmp" ++ toString t ++ ", tmp" ++
              toString (t + 1) ++ ");" from rfl]
          simp [String.append_assoc]
          rw [show (" = MAX(tmp" : String) = " = " ++ "MAX(tmp" from rfl, String.append_assoc])⟩
    · refine ⟨rfl, by simp [emit_fmul], ?_⟩
      intro k hk
      have hkb : k < 1 := hk
      interval_cases k
      exact ⟨y ++ " * " ++ x ++ ";", Or.inl (by
        rw [show (("FMUL", 2, emit_fmul).2.2 t [x, y]).1.getD 0 "" =
            "double tmp" ++ toString t ++ " = " ++ y ++ " * " ++ x ++ ";" from rfl]
        simp [String.append_assoc])⟩
    · refine ⟨rfl, by simp [emit_fsub], ?_⟩
      intro k hk
      have hkb : k < 1 := hk
      interval_cases k
      exact ⟨y ++ " - " ++ x ++ ";", Or.inl (by
        rw [show (("FSUB", 2, emit_fsub).2.2 t [x, y]).1.getD 0 "" =
            "double tmp" ++ toString t ++ " = " ++ y ++ " - " ++ x ++ ";" from rfl]
        simp [String.append_assoc])⟩
    · refine ⟨rfl, by simp [emit_read], ?_⟩
      intro k hk
      have hkb : k < 1 := hk
      interval_cases k
      exact ⟨"accumulator[metric_set->" ++ pyLower y ++ "_offset + " ++ x ++ "];", Or.inr (by
        rw [show (("READ", 2, emit_read).2.2 t [x, y]).1.getD 0 "" =
            "uint64_t tmp" ++ toString t ++ " = accumulator[metric_set->" ++ pyLower y ++
            "_offset + " ++ x ++ "];" from rfl]
        simp [String.append_assoc]
        rw [show (" = accumulator[metric_set->" : String) =
            " = " ++ "accumulator[metric_set->" from rfl, String.append_assoc])⟩
    · refine ⟨rfl, by simp [emit_uadd], ?_⟩
      intro k hk
      have hkb : k < 1 := hk
      interval_cases k
      exact ⟨y ++ " + " ++ x ++ ";", Or.inr (by
        rw [show (("UADD", 2, emit_uadd).2.2 t [x, y]).1.getD 0 "" =
            "uint64_t tmp" ++ toString t ++ " = " ++ y ++ " + " ++ x ++ ";" from rfl]
        simp [String.append_assoc])⟩
    · refine ⟨rfl, by simp [emit_udiv], ?_⟩
      intro k hk
      have hkb : k < 3 := hk
      interval_cases k
      · exact ⟨y ++ ";", Or.inr (by
          rw [show (("UDIV", 2, emit_udiv).2.2 t [x, y]).1.getD 0 "" =
              "uint64_t tmp" ++ toString t ++ " = " ++ y ++ ";" from rfl]
          simp [String.append_assoc])⟩
      · exact ⟨x ++ ";", Or.inr (by
          rw [show (("UDIV", 2, emit_udiv).2.2 t [x, y]).1.getD 1 "" =
              "uint64_t tmp" ++ toString (t + 1) ++ " = " ++ x ++ ";" from rfl]
          simp [String.append_assoc])⟩
      · exact ⟨"tmp" ++ toString (t + 1) ++ " ? tmp" ++ toString t ++ " / tmp" ++
            toString (t + 1) ++ " : 0;", Or.inr (by
          rw [show (("UDIV", 2, emit_udiv).2.2 t [x, y]).1.getD 2 "" =
              "uint64_t tmp" ++ toString (t + 2) ++ " = tmp" ++ toString (t + 1) ++ " ? tmp" ++
              toString t ++ " / tmp" ++ toString (t + 1) ++ " : 0;" from rfl]
          simp [String.append_assoc]
          rw [show (" = tmp" : String) = " = " ++ "tmp" from rfl, String.append_assoc])⟩
    · refine ⟨rfl, by simp [emit_umul], ?_⟩
      intro k hk
      have hkb : k < 1 := hk
      interval_cases k
      exact ⟨y ++ " * " ++ x ++ ";", Or.inr (by
        rw [show (("UMUL", 2, emit_umul).2.2 t [x, y]).1.getD 0 "" =
            "uint64_t tmp" ++ toString t ++ " = " ++ y ++ " * " ++ x ++ ";" from rfl]
        simp [String.append_assoc])⟩
    · refine ⟨rfl, by simp [emit_usub], ?_⟩
      intro k hk
      have hkb : k < 1 := hk
      interval_cases k
      exact ⟨y ++ " - " ++ x ++ ";", Or.inr (by
        rw [show (("USUB", 2, emit_usub).2.2 t [x, y]).1.getD 0 "" =
            "uint64_t tmp" ++ toString t ++ " = " ++ y ++ " - " ++ x ++ ";" from rfl]
        simp [String.append_assoc])⟩
    · refine ⟨rfl, by simp [emit_umin], ?_⟩
      intro k hk
      have hkb : k < 1 := hk
      interval_cases k
      exact ⟨"MIN(" ++ y ++ ", " ++ x ++ ");", Or.inr (by
        rw [show (("UMIN", 2, emit_umin).2.2 t [x, y]).1.getD 0 "" =
            "uint64_t tmp" ++ toString t ++ " = MIN(" ++ y ++ ", " ++ x ++ ");" from rfl]
        simp [String.append_assoc]
        rw [show (" = MIN(" : String) = " = " ++ "MIN(" from rfl, String.append_assoc])⟩
    · refine ⟨rfl, by simp [emit_lshft], ?_⟩
      intro k hk
      have hkb : k < 1 := hk
      interval_cases k
      exact ⟨y ++ " << " ++ x ++ ";", Or.inr (by
        rw [show (("<<", 2, emit_lshft).2.2 t [x, y]).1.getD 0 "" =
            "uint64_t tmp" ++ toString t ++ " = " ++ y ++ " << " ++ x ++ ";" from rfl]
        simp [String.append_assoc])⟩
    · refine ⟨rfl, by simp [emit_rshft], ?_⟩
      intro k hk
      have hkb : k < 1 := hk
      interval_cases k
      exact ⟨y ++ " >> " ++ x ++ ";", Or.inr (by
        rw [show ((">>", 2, emit_rshft).2.2 t [x, y]).1.getD 0 "" =
            "uint64_t tmp" ++ toString t ++ " = " ++ y ++ " >> " ++ x ++ ";" from rfl]
        simp [String.append_assoc])⟩
    · refine ⟨rfl, by simp [emit_and], ?_⟩
      intro k hk
      have hkb : k < 1 := hk
      interval_cases k
      exact ⟨y ++ " & " ++ x ++ ";", Or.inr (by
        rw [show (("AND", 2, emit_and).2.2 t [x, y]).1.getD 0 "" =
            "uint64_t tmp" ++ toString t ++ " = " ++ y ++ " & " ++ x ++ ";" from rfl]
        simp [String.append_assoc])⟩
    · refine ⟨rfl, by simp [emit_ugte], ?_⟩
      intro k hk
      have hkb : k < 1 := hk
      interval_cases k
      exact ⟨y ++ " >= " ++ x ++ ";", Or.inr (by
        rw [show (("UGTE", 2, emit_ugte).2.2 t [x, y]).1.getD 0 "" =
            "uint64_t tmp" ++ toString t ++ " = " ++ y ++ " >= " ++ x ++ ";" from rfl]
        simp [String.append_assoc])⟩
    · refine ⟨rfl, by simp [emit_ugt], ?_⟩
      intro k hk
      have hkb : k < 1 := hk
      interval_cases k
      exact ⟨y ++ " > " ++ x ++ ";", Or.inr (by
        rw [show (("UGT", 2, emit_ugt).2.2 t [x, y]).1.getD 0 "" =
            "uint64_t tmp" ++ toString t ++ " = " ++ y ++ " > " ++ x ++ ";" from rfl]
        simp [String.append_assoc])⟩
    · refine ⟨rfl, by simp [emit_ulte], ?_⟩
      intro k hk
      have hkb : k < 1 := hk
      interval_cases k
      exact ⟨y ++ " <= " ++ x ++ ";", Or.inr (by
        rw [show (("ULTE", 2, emit_ulte).2.2 t [x, y]).1.getD 0 "" =
            "uint64_t tmp" ++ toString t ++ " = " ++ y ++ " <= " ++ x ++ ";" from rfl]
        simp [String.append_assoc])⟩
    · refine ⟨rfl, by simp [emit_ult], ?_⟩
      intro k hk
      have hkb : k < 1 := hk
      interval_cases k
      exact ⟨y ++ " < " ++ x ++ ";", Or.inr (by
        rw [show (("ULT", 2, emit_ult).2.2 t [x, y]).1.getD 0 "" =
            "uint64_t tmp" ++ toString t ++ " = " ++ y ++ " < " ++ x ++ ";" from rfl]
        simp [String.append_assoc])⟩

/-- Witness for C9: concrete instances of the three parts — the id
discipline of `emit_fdiv` at free id 4, the push step for `FADD`, and the
monotonicity of a one-token run starting at id 5. -/
theorem claim_C9_witness :
    (("FDIV", 2, emit_fdiv) ∈ opsTable ∧
     (emit_fdiv 4 ["B", "A"]).2 = 4 + (emit_fdiv 4 ["B", "A"]).1.length ∧
     1 ≤ (emit_fdiv 4 ["B", "A"]).1.length ∧
     (∀ k, k < (emit_fdiv 4 ["B", "A"]).1.length → ∃ rest,
        (emit_fdiv 4 ["B", "A"]).1.getD k "" =
          "double tmp" ++ toString (4 + k) ++ " = " ++ rest ∨
        (emit_fdiv 4 ["B", "A"]).1.getD k "" =
          "uint64_t tmp" ++ toString (4 + k) ++ " = " ++ rest)) ∧
    (opsLookup "FADD" = some (2, emit_fadd) ∧
     popArgs demoSet demoCounter "x" 2 ["B", "A"] = .ok (["B", "A"], []) ∧
     runOps demoSet demoCounter "x" (0 + 1) ["FADD", "B", "A"] 0 [] =
       runOps demoSet demoCounter "x" 0
         (("tmp" ++ toString ((emit_fadd 0 ["B", "A"]).2 - 1)) :: [])
         (emit_fadd 0 ["B", "A"]).2 ([] ++ (emit_fadd 0 ["B", "A"]).1)) ∧
    (runTokens demoSet demoCounter "x" ["A"] [] 5 [] = ([], .ok (["A"], 5)) ∧
     5 ≤ 5) := by
  have hmem : ("FDIV", 2, emit_fdiv) ∈ opsTable := by
    unfold opsTable
    exact .tail _ (.head _)
  have hinst := claim_C9.1 ("FDIV", 2, emit_fdiv) hmem 4 "B" "A"
  refine ⟨⟨hmem, hinst.1, hinst.2.1, hinst.2.2⟩, ⟨rfl, rfl, ?_⟩, ⟨by decide, le_refl 5⟩⟩
  exact (claim_C9.2.1 demoSet demoCounter "x" 0 "FADD" ["B", "A"] [] ["B", "A"] 0 []
    2 emit_fadd rfl rfl)

/-- Tokens of the truthy max-equation (empty when the attribute is absent
or falsy), as traversed by `compute_hashes`. -/
def maxToks (c : Counter) : List String :=
  match truthyMax c.max_equation with
  | none => []
  | some me => pySplit me

lemma optMapTokens_mono_some (g g' : String → Option String)
    (hg : ∀ x v, g x = some v → g' x = some v) :
    ∀ (l r : List String), optMapTokens g l = some r → optMapTokens g' l = some r := by
  intro l
  induction l with
  | nil => intro r h; simpa [optMapTokens] using h
  | cons t ts ih =>
    intro r h
    simp only [optMapTokens] at h ⊢
    cases hgt : g t with
    | none => rw [hgt] at h; simp at h
    | some v =>
      rw [hgt] at h
      cases hrec : optMapTokens g ts with
      | none => rw [hrec] at h; simp at h
      | some vs =>
        rw [hrec] at h
        rw [hg t v hgt, ih vs hrec]
        exact h

lemma optMapTokens_isSome (g : String → Option String) :
    ∀ (l : List String), (∀ x ∈ l, (g x).isSome) → (optMapTokens g l).isSome := by
  intro l
  induction l with
  | nil => intro _; simp [optMapTokens]
  | cons t ts ih =>
    intro h
    simp only [optMapTokens]
    cases hgt : g t with
    | none =>
      have := h t (List.mem_cons_self t ts)
      rw [hgt] at this
      simp at this
    | some v =>
      have hts := ih fun x hx => h x (List.mem_cons_of_mem t hx)
      cases hrec : optMapTokens g ts with
      | none => rw [hrec] at hts; simp at hts
      | some vs => simp

lemma revFindIdx_lt (tok : String) :
    ∀ (l : List Counter) (k : Nat), revFindIdx tok l = some k → k < l.length := by
  intro l
  induction l with
  | nil => intro k h; simp [revFindIdx] at h
  | cons c cs ih =>
    intro k h
    simp only [revFindIdx] at h
    by_cases hc : ("$" ++ c.symbol_name) = tok
    · rw [if_pos hc] at h
      injection h with h0
      subst h0
      simp
    · rw [if_neg hc] at h
      cases hrec : revFindIdx tok cs with
      | none => rw [hrec] at h; simp at h
      | some k2 =>
        rw [hrec] at h
        simp at h
        have := ih k2 hrec
        simp only [List.length_cons]
        omega

lemma counterVarsIdx_lt (s : SetModel) (tok : String) (j : Nat)
    (h : counterVarsIdx s tok = some j) : j < s.counters.length := by
  unfold counterVarsIdx at h
  cases hf : revFindIdx tok s.counters.reverse with
  | none => rw [hf] at h; simp at h
  | some k =>
    rw [hf] at h
    simp at h
    have hk := revFindIdx_lt tok s.counters.reverse k hf
    simp at hk
    omega

lemma hashesFuel_mono :
    ∀ (f f' : Nat) (s : SetModel) (i : Nat) (v : String × Option String),
      f ≤ f' → hashesFuel s f i = some v → hashesFuel s f' i = some v := by
  intro f
  induction f with
  | zero =>
    intro f' s i v _ h
    simp [hashesFuel] at h
  | succ f ih =>
    intro f' s i v hle h
    obtain ⟨f2, rfl⟩ : ∃ f2, f' = f2 + 1 := ⟨f' - 1, by omega⟩
    have hf2 : f ≤ f2 := by omega
    have hrepl : ∀ x u,
        hashReplace s (fun j => (hashesFuel s f j).map Prod.fst) x = some u →
        hashReplace s (fun j => (hashesFuel s f2 j).map Prod.fst) x = some u := by
      intro x u hx
      unfold hashReplace at hx ⊢
      by_cases hd : x.data.head? = some '$'
      · rw [if_pos hd] at hx ⊢
        cases hidx : counterVarsIdx s x with
        | none => rw [hidx] at hx; exact hx
        | some j =>
          rw [hidx] at hx
          have hx2 : (hashesFuel s f j).map Prod.fst = some u := hx
          show (hashesFuel s f2 j).map Prod.fst = some u
          cases hv : hashesFuel s f j with
          | none => rw [hv] at hx2; simp at hx2
          | some p =>
            rw [hv] at hx2
            rw [ih f2 s j p hf2 hv]
            exact hx2
      · rw [if_neg hd] at hx ⊢
        exact hx
    simp only [hashesFuel] at h ⊢
    cases hc : s.counters.get? i with
    | none => rw [hc] at h; simp at h
    | some c =>
      rw [hc] at h
      have h1 : hashOfCounter s (fun j => (hashesFuel s f j).map Prod.fst) c = some v := h
      show hashOfCounter s (fun j => (hashesFuel s f2 j).map Prod.fst) c = some v
      unfold hashOfCounter at h1 ⊢
      cases hm1 : optMapTokens
          (hashReplace s fun j => (hashesFuel s f j).map Prod.fst)
          (pySplit c.equation) with
      | none => rw [hm1] at h1; simp at h1
      | some rtoks =>
        rw [hm1] at h1
        rw [optMapTokens_mono_some _ _ hrepl _ _ hm1]
        have h2 : (match truthyMax c.max_equation with
          | none => some (pyJoin " " rtoks, none)
          | some me =>
            match optMapTokens (hashReplace s fun j => (hashesFuel s f j).map Prod.fst)
                (pySplit me) with
            | none => none
            | some mtoks => some (pyJoin " " rtoks, some (pyJoin " " mtoks))) =
            some v := h1
        show (match truthyMax c.max_equation with
          | none => some (pyJoin " " rtoks, none)
          | some me =>
            match optMapTokens (hashReplace s fun j => (hashesFuel s f2 j).map Prod.fst)
                (pySplit me) with
            | none => none
            | some mtoks => some (pyJoin " " rtoks, some (pyJoin " " mtoks))) =
            some v
        cases htm : truthyMax c.max_equation with
        | none => rw [htm] at h2; exact h2
        | some me =>
          rw [htm] at h2
          have h3 : (match optMapTokens
              (hashReplace s fun j => (hashesFuel s f j).map Prod.fst) (pySplit me) with
            | none => none
            | some mtoks => some (pyJoin " " rtoks, some (pyJoin " " mtoks))) = some v := h2
          show (match optMapTokens
              (hashReplace s fun j => (hashesFuel s f2 j).map Prod.fst) (pySplit me) with
            | none => none
            | some mtoks => some (pyJoin " " rtoks, some (pyJoin " " mtoks))) = some v
          cases hm2 : optMapTokens
              (hashReplace s fun j => (hashesFuel s f j).map Prod.fst)
              (pySplit me) with
          | none => rw [hm2] at h3; simp at h3
          | some mtoks =>
            rw [hm2] at h3
            rw [optMapTokens_mono_some _ _ hrepl _ _ hm2]
            exact h3

lemma refersTo_lt (s : SetModel) (i j : Nat) (h : refersTo s i j = true) :
    j < s.counters.length := by
  unfold refersTo at h
  cases hc : s.counters.get? i with
  | none => rw [hc] at h; simp at h
  | some c =>
    rw [hc] at h
    obtain ⟨t, ht, hp⟩ := List.any_eq_true.mp h
    simp at hp
    exact counterVarsIdx_lt s t j hp

lemma hash_step_isSome (s : SetModel) (n i : Nat) (c : Counter)
    (hc : s.counters.get? i = some c)
    (hrec : ∀ j, refersTo s i j = true →
      ((hashesFuel s n j).map Prod.fst).isSome = true) :
    (hashesFuel s (n + 1) i).isSome = true := by
  have htok : ∀ tok ∈ pySplit c.equation ++ maxToks c,
      (hashReplace s (fun j => (hashesFuel s n j).map Prod.fst) tok).isSome = true := by
    intro tok htk
    unfold hashReplace
    by_cases hd : tok.data.head? = some '$'
    · rw [if_pos hd]
      cases hidx : counterVarsIdx s tok with
      | none => rfl
      | some j =>
        apply hrec
        unfold refersTo
        rw [hc]
        exact List.any_eq_true.mpr ⟨tok, htk, by simp [hidx]⟩
    · rw [if_neg hd]
      rfl
  have hr : (optMapTokens (hashReplace s fun j => (hashesFuel s n j).map Prod.fst)
      (pySplit c.equation)).isSome :=
    optMapTokens_isSome _ _ fun x hx => htok x (List.mem_append_left _ hx)
  obtain ⟨rtoks, hrt⟩ := Option.isSome_iff_exists.mp hr
  simp only [hashesFuel]
  rw [hc]
  show (hashOfCounter s (fun j => (hashesFuel s n j).map Prod.fst) c).isSome = true
  cases htm : truthyMax c.max_equation with
  | none =>
    have hval : hashOfCounter s (fun j => (hashesFuel s n j).map Prod.fst) c =
        some (pyJoin " " rtoks, none) := by
      unfold hashOfCounter
      rw [hrt]
      show (match truthyMax c.max_equation with
        | none => some (pyJoin " " rtoks, none)
        | some me =>
          match optMapTokens (hashReplace s fun j => (hashesFuel s n j).map Prod.fst)
              (pySplit me) with
          | none => none
          | some mtoks => some (pyJoin " " rtoks, some (pyJoin " " mtoks))) =
        some (pyJoin " " rtoks, none)
      rw [htm]
    rw [hval]
    rfl
  | some me =>
    have hm : (optMapTokens (hashReplace s fun j => (hashesFuel s n j).map Prod.fst)
        (pySplit me)).isSome :=
      optMapTokens_isSome _ _ fun x hx => htok x
        (List.mem_append_right _ (by unfold maxToks; rw [htm]; exact hx))
    obtain ⟨mtoks, hmt⟩ := Option.isSome_iff_exists.mp hm
    have hval : hashOfCounter s (fun j => (hashesFuel s n j).map Prod.fst) c =
        some (pyJoin " " rtoks, some (pyJoin " " mtoks)) := by
      unfold hashOfCounter
      rw [hrt]
      show (match truthyMax c.max_equation with
        | none => some (pyJoin " " rtoks, none)
        | some me =>
          match optMapTokens (hashReplace s fun j => (hashesFuel s n j).map Prod.fst)
              (pySplit me) with
          | none => none
          | some mtoks => some (pyJoin " " rtoks, some (pyJoin " " mtoks))) =
        some (pyJoin " " rtoks, some (pyJoin " " mtoks))
      rw [htm]
      show (match optMapTokens (hashReplace s fun j => (hashesFuel s n j).map Prod.fst)
          (pySplit me) with
        | none => none
        | some mtoks => some (pyJoin " " rtoks, some (pyJoin " " mtoks))) =
        some (pyJoin " " rtoks, some (pyJoin " " mtoks))
      rw [hmt]
    rw [hval]
    rfl

/-- Fixture: acyclic two-counter chain (A's equation references B). -/
def chainSet : SetModel :=
  ⟨"xe", "Chain", "chain",
   [⟨"Counter A", "A", "a", "$B 2 UMUL", none⟩,
    ⟨"Counter B", "B", "b", "1 2 UADD", none⟩]⟩

/-- Fixture: a counter whose equation references itself — the cyclic case
on which `compute_hashes` recurses without bound. -/
def cycSet : SetModel :=
  ⟨"xe", "Cyc", "cyc", [⟨"Counter A", "A", "a", "$A", none⟩]⟩

/-- C8: whenever the sibling-reference relation of a set admits a rank
function (acyclicity), hash computation finishes with fuel bounded by the
rank — the recursion depth is bounded by the longest reference chain; and
acyclicity is a genuine precondition: on the self-referencing counter of
`cycSet` no amount of fuel suffices, the model of the source's unbounded
recursion (no cycle detection). -/
theorem claim_C8 :
    (∀ (s : SetModel) (rank : Nat → Nat),
       (∀ i, i < s.counters.length → ∀ j, j < s.counters.length →
          refersTo s i j = true → rank j < rank i) →
       ∀ i, i < s.counters.length → (hashesFuel s (rank i + 1) i).isSome = true) ∧
    (∀ fuel, hashesFuel cycSet fuel 0 = none) := by
  constructor
  · intro s rank hrank
    have KEY : ∀ n i, i < s.counters.length → rank i = n →
        (hashesFuel s (n + 1) i).isSome = true := by
      intro n
      induction n using Nat.strong_induction_on with
      | _ n ihn =>
        intro i hi hr
        obtain ⟨c, hc⟩ : ∃ c, s.counters.get? i = some c := by
          cases hg : s.counters.get? i with
          | none => exact absurd (List.get?_eq_none.mp hg) (by omega)
          | some c => exact ⟨c, rfl⟩
        apply hash_step_isSome s n i c hc
        intro j href
        have hj : j < s.counters.length := refersTo_lt s i j href
        have hlt : rank j < n := hr ▸ hrank i hi j hj href
        have hjs := ihn (rank j) hlt j hj rfl
        obtain ⟨p, hp⟩ := Option.isSome_iff_exists.mp hjs
        rw [hashesFuel_mono (rank j + 1) n s j p (by omega) hp]
        rfl
    intro i hi
    exact KEY (rank i) i hi rfl
  · intro fuel
    induction fuel with
    | zero => rfl
    | succ f ih =>
      have hrec : (hashesFuel cycSet f 0).map Prod.fst = none := by rw [ih]; rfl
      have h1 : hashReplace cycSet
          (fun j => (hashesFuel cycSet f j).map Prod.fst) "$A" = none := by
        have hx : hashReplace cycSet
            (fun j => (hashesFuel cycSet f j).map Prod.fst) "$A" =
            (hashesFuel cycSet f 0).map Prod.fst := rfl
        rw [hx, hrec]
      have h2 : optMapTokens
          (hashReplace cycSet fun j => (hashesFuel cycSet f j).map Prod.fst)
          (pySplit "$A") = none := by
        have hx : pySplit "$A" = ["$A"] := rfl
        rw [hx]
        simp [optMapTokens, h1]
      have hc0 : cycSet.counters.get? 0 = some ⟨"Counter A", "A", "a", "$A", none⟩ := rfl
      simp only [hashesFuel]
      rw [hc0]
      show hashOfCounter cycSet (fun j => (hashesFuel cycSet f j).map Prod.fst)
        ⟨"Counter A", "A", "a", "$A", none⟩ = none
      unfold hashOfCounter
      rw [h2]

/-- Witness for C8 on the acyclic `chainSet` with rank `1 - i`. -/
theorem claim_C8_witness :
    (∀ i, i < chainSet.counters.length → ∀ j, j < chainSet.counters.length →
       refersTo chainSet i j = true → 1 - j < 1 - i) ∧
    (hashesFuel chainSet (1 - 0 + 1) 0).isSome = true := by
  refine ⟨by decide, ?_⟩
  exact claim_C8.1 chainSet (fun i => 1 - i) (by decide) 0 (by decide)

lemma hashReplace_congr (s s' : SetModel)
    (hidx : ∀ tok, counterVarsIdx s tok = counterVarsIdx s' tok)
    (recur recur' : Nat → Option String) (hr : ∀ j, recur j = recur' j) :
    ∀ tok, hashReplace s recur tok = hashReplace s' recur' tok := by
  intro tok
  unfold hashReplace
  by_cases hd : tok.data.head? = some '$'
  · rw [if_pos hd, if_pos hd, hidx tok]
    cases counterVarsIdx s' tok with
    | none => rfl
    | some j => exact hr j
  · rw [if_neg hd, if_neg hd]

lemma optMapTokens_congr (g g' : String → Option String) (hg : ∀ x, g x = g' x) :
    ∀ l, optMapTokens g l = optMapTokens g' l := by
  intro l
  induction l with
  | nil => rfl
  | cons t ts ih => simp only [optMapTokens, hg t, ih]

lemma revFindIdx_congr (tok : String) :
    ∀ (l l' : List Counter),
      l.map Counter.symbol_name = l'.map Counter.symbol_name →
      revFindIdx tok l = revFindIdx tok l' := by
  intro l
  induction l with
  | nil =>
    intro l' h
    cases l' with
    | nil => rfl
    | cons c cs => simp at h
  | cons c cs ih =>
    intro l' h
    cases l' with
    | nil => simp at h
    | cons c' cs' =>
      simp at h
      obtain ⟨hsym, htail⟩ := h
      simp only [revFindIdx, hsym, ih cs' htail]

lemma counterVarsIdx_congr (s s' : SetModel)
    (hlen : s.counters.length = s'.counters.length)
    (hmap : s.counters.map Counter.symbol_name = s'.counters.map Counter.symbol_name) :
    ∀ tok, counterVarsIdx s tok = counterVarsIdx s' tok := by
  intro tok
  unfold counterVarsIdx
  rw [revFindIdx_congr tok s.counters.reverse s'.counters.reverse
        (by rw [List.map_reverse, List.map_reverse, hmap]), hlen]

lemma hashOfCounter_congr (s s' : SetModel) (c c' : Counter)
    (hidx : ∀ tok, counterVarsIdx s tok = counterVarsIdx s' tok)
    (recur recur' : Nat → Option String) (hr : ∀ j, recur j = recur' j)
    (heq : pySplit c.equation = pySplit c'.equation)
    (hmax : (truthyMax c.max_equation).map pySplit =
            (truthyMax c'.max_equation).map pySplit) :
    hashOfCounter s recur c = hashOfCounter s' recur' c' := by
  have hg := hashReplace_congr s s' hidx recur recur' hr
  unfold hashOfCounter
  have e1 : optMapTokens (hashReplace s recur) (pySplit c.equation) =
      optMapTokens (hashReplace s' recur') (pySplit c'.equation) := by
    rw [heq]
    exact optMapTokens_congr _ _ hg _
  rw [e1]
  cases hv : optMapTokens (hashReplace s' recur') (pySplit c'.equation) with
  | none => rfl
  | some rtoks =>
    cases htm : truthyMax c.max_equation with
    | none =>
      cases htm' : truthyMax c'.max_equation with
      | none => rfl
      | some me' => rw [htm, htm'] at hmax; simp at hmax
    | some me =>
      cases htm' : truthyMax c'.max_equation with
      | none => rw [htm, htm'] at hmax; simp at hmax
      | some me' =>
        rw [htm, htm'] at hmax
        simp only [Option.map_some', Option.some.injEq] at hmax
        have e2 : optMapTokens (hashReplace s recur) (pySplit me) =
            optMapTokens (hashReplace s' recur') (pySplit me') := by
          rw [hmax]
          exact optMapTokens_congr _ _ hg _
        simp only [e2]

/-- Hash-relevant shape of a set: same number of counters, same symbol
names, same whitespace-delimited token sequences of every equation and of
every truthy max-equation.  `compute_hashes` cannot distinguish two sets
of the same shape. -/
def SameShape (s s' : SetModel) : Prop :=
  s.counters.length = s'.counters.length ∧
  (∀ i, (s.counters.get? i).map Counter.symbol_name =
        (s'.counters.get? i).map Counter.symbol_name) ∧
  (∀ i, (s.counters.get? i).map (fun c => pySplit c.equation) =
        (s'.counters.get? i).map (fun c => pySplit c.equation)) ∧
  (∀ i, (s.counters.get? i).map (fun c => (truthyMax c.max_equation).map pySplit) =
        (s'.counters.get? i).map (fun c => (truthyMax c.max_equation).map pySplit))

lemma sameShape_symbol_map (s s' : SetModel) (h : SameShape s s') :
    s.counters.map Counter.symbol_name = s'.counters.map Counter.symbol_name := by
  apply List.ext_get?
  intro n
  rw [List.get?_map, List.get?_map]
  exact h.2.1 n

lemma hashesFuel_congr (s s' : SetModel) (h : SameShape s s') :
    ∀ (f i : Nat), hashesFuel s f i = hashesFuel s' f i := by
  have hidx := counterVarsIdx_congr s s' h.1 (sameShape_symbol_map s s' h)
  intro f
  induction f with
  | zero => intro i; rfl
  | succ f ih =>
    intro i
    simp only [hashesFuel]
    cases hc : s.counters.get? i with
    | none =>
      have hc' : s'.counters.get? i = none := by
        have hm := h.2.1 i
        rw [hc] at hm
        cases hg : s'.counters.get? i with
        | none => rfl
        | some c2 => rw [hg] at hm; simp at hm
      rw [hc']
    | some c =>
      obtain ⟨c', hc'⟩ : ∃ c', s'.counters.get? i = some c' := by
        have hm := h.2.1 i
        rw [hc] at hm
        cases hg : s'.counters.get? i with
        | none => rw [hg] at hm; simp at hm
        | some c2 => exact ⟨c2, rfl⟩
      rw [hc']
      show hashOfCounter s (fun j => (hashesFuel s f j).map Prod.fst) c =
        hashOfCounter s' (fun j => (hashesFuel s' f j).map Prod.fst) c'
      apply hashOfCounter_congr s s' c c' hidx _ _ (fun j => by rw [ih j])
      · have hm := h.2.2.1 i
        rw [hc, hc'] at hm
        simpa using hm
      · have hm := h.2.2.2 i
        rw [hc, hc'] at hm
        simpa using hm

lemma updateEq_sameShape (s : SetModel) (i : Nat) (e' : String) (c : Counter)
    (hc : s.counters.get? i = some c) (heq : pySplit e' = pySplit c.equation) :
    SameShape (updateEq s i e') s := by
  have hupd : updateEq s i e' =
      ⟨s.chipset, s.name, s.underscore_name,
       s.counters.set i { c with equation := e' }⟩ := by
    unfold updateEq
    rw [hc]
  rw [hupd]
  refine ⟨by simp, ?_, ?_, ?_⟩ <;> intro k <;>
    simp only [List.get?_set] <;> by_cases hik : i = k
  · subst hik; rw [hc, if_pos rfl]; rfl
  · rw [if_neg hik]
  · subst hik; rw [hc, if_pos rfl]; simpa using heq
  · rw [if_neg hik]
  · subst hik; rw [hc, if_pos rfl]; rfl
  · rw [if_neg hik]

lemma updateMaxEq_sameShape (s : SetModel) (i : Nat) (me' : Option String) (c : Counter)
    (hc : s.counters.get? i = some c)
    (hm : (truthyMax me').map pySplit = (truthyMax c.max_equation).map pySplit) :
    SameShape (updateMaxEq s i me') s := by
  have hupd : updateMaxEq s i me' =
      ⟨s.chipset, s.name, s.underscore_name,
       s.counters.set i { c with max_equation := me' }⟩ := by
    unfold updateMaxEq
    rw [hc]
  rw [hupd]
  refine ⟨by simp, ?_, ?_, ?_⟩ <;> intro k <;>
    simp only [List.get?_set] <;> by_cases hik : i = k
  · subst hik; rw [hc, if_pos rfl]; rfl
  · rw [if_neg hik]
  · subst hik; rw [hc, if_pos rfl]; rfl
  · rw [if_neg hik]
  · subst hik; rw [hc, if_pos rfl]; simpa using hm
  · rw [if_neg hik]

/-- C10: counter hashes depend only on the whitespace-delimited token
sequences: any two sets of the same shape (same symbol names and same
token sequences for every equation and truthy max-equation) get identical
hashes throughout, so replacing one counter's (max-)equation by one that
tokenizes identically — in particular one differing only in the kind or
amount of inter-token whitespace, since tokens are re-joined with single
spaces — leaves every counter's `read_hash` and `max_hash` unchanged. -/
theorem claim_C10 :
    (∀ s s', SameShape s s' → ∀ f i, hashesFuel s f i = hashesFuel s' f i) ∧
    (∀ (s : SetModel) (i : Nat) (e' : String) (c : Counter),
       s.counters.get? i = some c → pySplit e' = pySplit c.equation →
       ∀ f k, hashesFuel (updateEq s i e') f k = hashesFuel s f k) ∧
    (∀ (s : SetModel) (i : Nat) (me' : Option String) (c : Counter),
       s.counters.get? i = some c →
       (truthyMax me').map pySplit = (truthyMax c.max_equation).map pySplit →
       ∀ f k, hashesFuel (updateMaxEq s i me') f k = hashesFuel s f k) :=
  ⟨fun s s' h => hashesFuel_congr s s' h,
   fun s i e' c hc heq => hashesFuel_congr _ _ (updateEq_sameShape s i e' c hc heq),
   fun s i me' c hc hm => hashesFuel_congr _ _ (updateMaxEq_sameShape s i me' c hc hm)⟩

/-- Witness for C10: re-spacing `1 2 UADD` inside `chainSet` leaves the
hash of the counter that references it unchanged. -/
theorem claim_C10_witness :
    chainSet.counters.get? 1 = some ⟨"Counter B", "B", "b", "1 2 UADD", none⟩ ∧
    pySplit "1  2   UADD" = pySplit "1 2 UADD" ∧
    hashesFuel (updateEq chainSet 1 "1  2   UADD") 2 0 = hashesFuel chainSet 2 0 := by
  refine ⟨by decide, by decide, ?_⟩
  exact claim_C10.2.1 chainSet 1 "1  2   UADD"
    ⟨"Counter B", "B", "b", "1 2 UADD", none⟩ (by decide) (by decide) 2 0

lemma splitAtSpace :
    ∀ (x y r1 r2 : List Char), ' ' ∉ x → ' ' ∉ y →
      x ++ ' ' :: r1 = y ++ ' ' :: r2 → x = y ∧ r1 = r2 := by
  intro x
  induction x with
  | nil =>
    intro y r1 r2 _ hy h
    cases y with
    | nil => simpa using h
    | cons d ys =>
      simp at h
      obtain ⟨hd, -⟩ := h
      exact absurd (hd ▸ List.mem_cons_self d ys) hy
  | cons c xs ih =>
    intro y r1 r2 hx hy h
    cases y with
    | nil =>
      simp at h
      obtain ⟨hd, -⟩ := h
      exact absurd (hd ▸ List.mem_cons_self c xs) hx
    | cons d ys =>
      simp at h
      obtain ⟨hcd, htail⟩ := h
      have hrest := ih ys r1 r2 (fun hm => hx (List.mem_cons_of_mem c hm))
        (fun hm => hy (List.mem_cons_of_mem d hm)) htail
      exact ⟨by rw [hcd, hrest.1], hrest.2⟩

lemma joinSep_sp_inj :
    ∀ (L1 L2 : List (List Char)),
      (∀ t ∈ L1, t ≠ [] ∧ ' ' ∉ t) → (∀ t ∈ L2, t ≠ [] ∧ ' ' ∉ t) →
      joinSep [' '] L1 = joinSep [' '] L2 → L1 = L2 := by
  intro L1
  induction L1 with
  | nil =>
    intro L2 _ h2 h
    cases L2 with
    | nil => rfl
    | cons y ys =>
      cases ys with
      | nil =>
        simp only [joinSep] at h
        exact absurd h.symm (h2 y (List.mem_cons_self y _)).1
      | cons z zs =>
        simp only [joinSep] at h
        have : y ++ [' '] ++ joinSep [' '] (z :: zs) ≠ [] := by simp
        exact absurd h.symm this
  | cons x xs ih =>
    intro L2 h1 h2 h
    cases L2 with
    | nil =>
      cases xs with
      | nil =>
        simp only [joinSep] at h
        exact absurd h (h1 x (List.mem_cons_self x _)).1
      | cons w ws =>
        simp only [joinSep] at h
        have : x ++ [' '] ++ joinSep [' '] (w :: ws) ≠ [] := by simp
        exact absurd h this
    | cons y ys =>
      cases xs with
      | nil =>
        cases ys with
        | nil => simpa [joinSep] using h
        | cons z zs =>
          simp only [joinSep] at h
          have hsp : ' ' ∈ (x : List Char) := by
            rw [h]
            simp
          exact absurd hsp (h1 x (List.mem_cons_self x [])).2
      | cons w ws =>
        cases ys with
        | nil =>
          simp only [joinSep] at h
          have hsp : ' ' ∈ (y : List Char) := by
            rw [← h]
            simp
          exact absurd hsp (h2 y (List.mem_cons_self y [])).2
        | cons z zs =>
          simp only [joinSep] at h
          rw [List.append_assoc, List.append_assoc] at h
          have hx := splitAtSpace x y _ _ (h1 x (List.mem_cons_self x _)).2
            (h2 y (List.mem_cons_self y _)).2 (by simpa using h)
          have htail := ih (z :: zs) (fun t ht => h1 t (List.mem_cons_of_mem x ht))
            (fun t ht => h2 t (List.mem_cons_of_mem y ht)) hx.2
          rw [hx.1, htail]

lemma list_mk_data :
    ∀ l : List String, (l.map String.data).map (fun cl => (⟨cl⟩ : String)) = l := by
  intro l
  induction l with
  | nil => rfl
  | cons s ss ih =>
    cases s
    simp only [List.map, ih]

lemma pyJoin_sp_inj (l1 l2 : List String)
    (h1 : ∀ t ∈ l1, t.data ≠ [] ∧ ' ' ∉ t.data)
    (h2 : ∀ t ∈ l2, t.data ≠ [] ∧ ' ' ∉ t.data)
    (h : pyJoin " " l1 = pyJoin " " l2) : l1 = l2 := by
  have hd : (pyJoin " " ((l1.map String.data).map fun cl => (⟨cl⟩ : String))).data =
      (pyJoin " " ((l2.map String.data).map fun cl => (⟨cl⟩ : String))).data := by
    rw [list_mk_data, list_mk_data, h]
  rw [pyJoin_data, pyJoin_data] at hd
  have hmap := joinSep_sp_inj (l1.map String.data) (l2.map String.data)
    (by
      intro t ht
      obtain ⟨u, hu, rfl⟩ := List.mem_map.mp ht
      exact h1 u hu)
    (by
      intro t ht
      obtain ⟨u, hu, rfl⟩ := List.mem_map.mp ht
      exact h2 u hu)
    hd
  rw [← list_mk_data l1, ← list_mk_data l2, hmap]

lemma splitWsAcc_wf :
    ∀ (l cur : List Char), (∀ ch ∈ cur, ¬ ch.isWhitespace) →
      ∀ t ∈ splitWsAcc l cur, t ≠ [] ∧ ∀ ch ∈ t, ¬ ch.isWhitespace := by
  intro l
  induction l with
  | nil =>
    intro cur hcur t ht
    simp only [splitWsAcc] at ht
    by_cases hc : cur = []
    · rw [if_pos hc] at ht
      simp at ht
    · rw [if_neg hc] at ht
      simp at ht
      subst ht
      refine ⟨by simpa using hc, ?_⟩
      intro ch hch
      exact hcur ch (List.mem_reverse.mp hch)
  | cons c cs ih =>
    intro cur hcur t ht
    simp only [splitWsAcc] at ht
    by_cases hw : c.isWhitespace
    · rw [if_pos hw] at ht
      by_cases hc : cur = []
      · rw [if_pos hc] at ht
        exact ih [] (by simp) t ht
      · rw [if_neg hc] at ht
        rcases List.mem_cons.mp ht with hcur1 | hrec
        · subst hcur1
          refine ⟨by simpa using hc, ?_⟩
          intro ch hch
          exact hcur ch (List.mem_reverse.mp hch)
        · exact ih [] (by simp) t hrec
    · rw [if_neg hw] at ht
      refine ih (c :: cur) ?_ t ht
      intro ch hch
      rcases List.mem_cons.mp hch with rfl | hm
      · exact hw
      · exact hcur ch hm

lemma pySplit_wf (s : String) : ∀ t ∈ pySplit s, t.data ≠ [] ∧ ' ' ∉ t.data := by
  intro t ht
  simp only [pySplit] at ht
  obtain ⟨cl, hcl, rfl⟩ := List.mem_map.mp ht
  have hwf := splitWsAcc_wf s.data [] (by simp) cl hcl
  exact ⟨hwf.1, fun hsp => hwf.2 ' ' hsp (by decide)⟩

lemma readHash_join (s : SetModel) (f i : Nat) (rh : String) (mh : Option String)
    (h : hashesFuel s (f + 1) i = some (rh, mh)) :
    ∃ rts, readTokensFuel s (f + 1) i = some rts ∧ rh = pyJoin " " rts := by
  simp only [hashesFuel, readTokensFuel] at h ⊢
  cases hc : s.counters.get? i with
  | none => rw [hc] at h; simp at h
  | some c =>
    rw [hc] at h
    have h1 : hashOfCounter s (fun j => (hashesFuel s f j).map Prod.fst) c =
        some (rh, mh) := h
    show ∃ rts, optMapTokens (hashReplace s fun j => (hashesFuel s f j).map Prod.fst)
      (pySplit c.equation) = some rts ∧ rh = pyJoin " " rts
    unfold hashOfCounter at h1
    cases hm1 : optMapTokens (hashReplace s fun j => (hashesFuel s f j).map Prod.fst)
        (pySplit c.equation) with
    | none => rw [hm1] at h1; simp at h1
    | some rtoks =>
      rw [hm1] at h1
      refine ⟨rtoks, rfl, ?_⟩
      have h2 : (match truthyMax c.max_equation with
        | none => some (pyJoin " " rtoks, none)
        | some me =>
          match optMapTokens (hashReplace s fun j => (hashesFuel s f j).map Prod.fst)
              (pySplit me) with
          | none => none
          | some mtoks => some (pyJoin " " rtoks, some (pyJoin " " mtoks))) =
          some (rh, mh) := h1
      cases htm : truthyMax c.max_equation with
      | none =>
        rw [htm] at h2
        simp at h2
        exact h2.1.symm
      | some me =>
        rw [htm] at h2
        have h3 : (match optMapTokens
            (hashReplace s fun j => (hashesFuel s f j).map Prod.fst) (pySplit me) with
          | none => none
          | some mtoks => some (pyJoin " " rtoks, some (pyJoin " " mtoks))) =
            some (rh, mh) := h2
        cases hm2 : optMapTokens (hashReplace s fun j => (hashesFuel s f j).map Prod.fst)
            (pySplit me) with
        | none => rw [hm2] at h3; simp at h3
        | some mtoks =>
          rw [hm2] at h3
          simp at h3
          exact h3.1.symm

lemma optMapTokens_id_of_no_ref (s : SetModel) (recur : Nat → Option String)
    (toks : List String) (h : ∀ tok ∈ toks, counterVarsIdx s tok = none) :
    optMapTokens (hashReplace s recur) toks = some toks := by
  induction toks with
  | nil => rfl
  | cons t ts ih =>
    simp only [optMapTokens]
    have ht : hashReplace s recur t = some t := by
      unfold hashReplace
      by_cases hd : t.data.head? = some '$'
      · rw [if_pos hd, h t (List.mem_cons_self t ts)]
      · rw [if_neg hd]
    rw [ht, ih fun x hx => h x (List.mem_cons_of_mem _ hx)]

lemma hashesFuel_no_ref (s : SetModel) (f i : Nat) (c : Counter)
    (hc : s.counters.get? i = some c)
    (heq : ∀ tok ∈ pySplit c.equation, counterVarsIdx s tok = none)
    (hmax : ∀ tok ∈ maxToks c, counterVarsIdx s tok = none) :
    hashesFuel s (f + 1) i =
      some (pyJoin " " (pySplit c.equation),
            (truthyMax c.max_equation).map fun me => pyJoin " " (pySplit me)) := by
  simp only [hashesFuel]
  rw [hc]
  show hashOfCounter s (fun j => (hashesFuel s f j).map Prod.fst) c = _
  unfold hashOfCounter
  rw [optMapTokens_id_of_no_ref s _ _ heq]
  cases htm : truthyMax c.max_equation with
  | none => rfl
  | some me =>
    show (match optMapTokens (hashReplace s fun j => (hashesFuel s f j).map Prod.fst)
        (pySplit me) with
      | none => none
      | some mtoks => some (pyJoin " " (pySplit c.equation), some (pyJoin " " mtoks))) =
      some (pyJoin " " (pySplit c.equation), some (pyJoin " " (pySplit me)))
    rw [optMapTokens_id_of_no_ref s _ _
      (by unfold maxToks at hmax; rw [htm] at hmax; exact hmax)]

lemma counterVarsIdx_updateEq (s : SetModel) (i : Nat) (e' : String) :
    ∀ tok, counterVarsIdx (updateEq s i e') tok = counterVarsIdx s tok := by
  unfold updateEq
  cases hc : s.counters.get? i with
  | none => intro tok; rfl
  | some c =>
    apply counterVarsIdx_congr
    · simp
    · apply List.ext_get?
      intro n
      rw [List.get?_map, List.get?_map, List.get?_set]
      by_cases hin : i = n
      · subst hin
        rw [hc, if_pos rfl]
        rfl
      · rw [if_neg hin]

lemma get?_updateEq_self (s : SetModel) (i : Nat) (e' : String) (c : Counter)
    (hc : s.counters.get? i = some c) :
    (updateEq s i e').counters.get? i = some { c with equation := e' } := by
  unfold updateEq
  rw [hc]
  show (s.counters.set i { c with equation := e' }).get? i = _
  rw [List.get?_set, if_pos rfl, hc]
  rfl

lemma get?_updateEq_other (s : SetModel) (i : Nat) (e' : String) (j : Nat) (hij : i ≠ j) :
    (updateEq s i e').counters.get? j = s.counters.get? j := by
  unfold updateEq
  cases hc : s.counters.get? i with
  | none => rfl
  | some c =>
    show (s.counters.set i { c with equation := e' }).get? j = _
    rw [List.get?_set, if_neg hij]

/-- C7: counters whose substituted token sequences coincide get identical
read hashes, across sets and independent of their own symbol names (part
one); two counters with byte-identical equations and no sibling references
hash to the single-space join of their tokens, hence equally (part two);
and replacing a literal token of one reference-free counter's equation
changes that counter's hash while leaving a reference-free sibling's
hashes untouched (part three). -/
theorem claim_C7 :
    (∀ (s s' : SetModel) (f f' i i' : Nat) (rh rh' : String) (mh mh' : Option String),
       hashesFuel s f i = some (rh, mh) →
       hashesFuel s' f' i' = some (rh', mh') →
       readTokensFuel s f i = readTokensFuel s' f' i' →
       rh = rh') ∧
    (∀ (s s' : SetModel) (f f' i i' : Nat) (c c' : Counter),
       s.counters.get? i = some c → s'.counters.get? i' = some c' →
       c.equation = c'.equation →
       (∀ tok ∈ pySplit c.equation ++ maxToks c, counterVarsIdx s tok = none) →
       (∀ tok ∈ pySplit c'.equation ++ maxToks c', counterVarsIdx s' tok = none) →
       readHashFuel s (f + 1) i = some (pyJoin " " (pySplit c.equation)) ∧
       readHashFuel s (f + 1) i = readHashFuel s' (f' + 1) i') ∧
    (∀ (s : SetModel) (i j f : Nat) (ci cj : Counter) (e' : String),
       i ≠ j →
       s.counters.get? i = some ci → s.counters.get? j = some cj →
       (∀ tok ∈ pySplit ci.equation ++ maxToks ci, counterVarsIdx s tok = none) →
       (∀ tok ∈ pySplit cj.equation ++ maxToks cj, counterVarsIdx s tok = none) →
       (∀ tok ∈ pySplit e', counterVarsIdx s tok = none) →
       pySplit e' ≠ pySplit ci.equation →
       readHashFuel (updateEq s i e') (f + 1) i ≠ readHashFuel s (f + 1) i ∧
       (∀ g, hashesFuel (updateEq s i e') g j = hashesFuel s g j)) := by
  refine ⟨?ptok, ?pid, ?pmut⟩
  case ptok =>
    intro s s' f f' i i' rh rh' mh mh' h h' hteq
    cases f with
    | zero => simp [hashesFuel] at h
    | succ f =>
      cases f' with
      | zero => simp [hashesFuel] at h'
      | succ f' =>
        obtain ⟨rts, hrt, hjoin⟩ := readHash_join s f i rh mh h
        obtain ⟨rts', hrt', hjoin'⟩ := readHash_join s' f' i' rh' mh' h'
        rw [hrt, hrt'] at hteq
        injection hteq with hteq
        rw [hjoin, hjoin', hteq]
  case pid =>
    intro s s' f f' i i' c c' hc hc' hceq hno hno'
    have h1 : readHashFuel s (f + 1) i = some (pyJoin " " (pySplit c.equation)) := by
      unfold readHashFuel
      rw [hashesFuel_no_ref s f i c hc
        (fun tok ht => hno tok (List.mem_append_left _ ht))
        (fun tok ht => hno tok (List.mem_append_right _ ht))]
      rfl
    have h2 : readHashFuel s' (f' + 1) i' = some (pyJoin " " (pySplit c'.equation)) := by
      unfold readHashFuel
      rw [hashesFuel_no_ref s' f' i' c' hc'
        (fun tok ht => hno' tok (List.mem_append_left _ ht))
        (fun tok ht => hno' tok (List.mem_append_right _ ht))]
      rfl
    refine ⟨h1, ?_⟩
    rw [h1, h2, hceq]
  case pmut =>
    intro s i j f ci cj e' hij hci hcj hnoi hnoj hnoe hne
    have hidx := counterVarsIdx_updateEq s i e'
    have hci' := get?_updateEq_self s i e' ci hci
    have h1 : readHashFuel (updateEq s i e') (f + 1) i =
        some (pyJoin " " (pySplit e')) := by
      unfold readHashFuel
      rw [hashesFuel_no_ref (updateEq s i e') f i { ci with equation := e' } hci'
        (fun tok ht => by rw [hidx tok]; exact hnoe tok ht)
        (fun tok ht => by
          rw [hidx tok]
          exact hnoi tok (List.mem_append_right _ ht))]
      rfl
    have h2 : readHashFuel s (f + 1) i = some (pyJoin " " (pySplit ci.equation)) := by
      unfold readHashFuel
      rw [hashesFuel_no_ref s f i ci hci
        (fun tok ht => hnoi tok (List.mem_append_left _ ht))
        (fun tok ht => hnoi tok (List.mem_append_right _ ht))]
      rfl
    constructor
    · rw [h1, h2]
      intro hcontra
      injection hcontra with hcontra
      exact hne (pyJoin_sp_inj _ _ (pySplit_wf e') (pySplit_wf ci.equation) hcontra)
    · intro g
      cases g with
      | zero => rfl
      | succ g =>
        rw [hashesFuel_no_ref (updateEq s i e') g j cj
            (by rw [get?_updateEq_other s i e' j hij]; exact hcj)
            (fun tok ht => by
              rw [hidx tok]
              exact hnoj tok (List.mem_append_left _ ht))
            (fun tok ht => by
              rw [hidx tok]
              exact hnoj tok (List.mem_append_right _ ht)),
          hashesFuel_no_ref s g j cj hcj
            (fun tok ht => hnoj tok (List.mem_append_left _ ht))
            (fun tok ht => hnoj tok (List.mem_append_right _ ht))]

/-- Fixture: two reference-free counters in one set. -/
def dualSet : SetModel :=
  ⟨"xe", "Dual", "dual",
   [⟨"Counter One", "C1", "c1", "1 2 UADD", none⟩,
    ⟨"Counter Two", "C2", "c2", "3 4 UADD", none⟩]⟩

/-- Fixture: a differently-named counter with the same equation text in a
different set. -/
def dualSetB : SetModel :=
  ⟨"xe", "DualB", "dual_b", [⟨"Counter Other", "Z9", "z9", "1 2 UADD", none⟩]⟩

/-- Witness for C7: identical equations in differently-named counters of
different sets hash equally; mutating one literal of `C1`'s equation
changes its hash and leaves `C2`'s hashes unchanged at every fuel shown
through the theorem (instantiated at fuel 1 conclusions). -/
theorem claim_C7_witness :
    (hashesFuel dualSet 1 0 = some ("1 2 UADD", none) ∧
     hashesFuel dualSetB 1 0 = some ("1 2 UADD", none) ∧
     readTokensFuel dualSet 1 0 = readTokensFuel dualSetB 1 0 ∧
     ("1 2 UADD" : String) = "1 2 UADD") ∧
    (readHashFuel (updateEq dualSet 0 "7 2 UADD") 1 0 ≠ readHashFuel dualSet 1 0 ∧
     (∀ g, hashesFuel (updateEq dualSet 0 "7 2 UADD") g 1 = hashesFuel dualSet g 1)) := by
  refine ⟨⟨by decide, by decide, by decide, ?ta⟩, ?tc⟩
  case ta => exact (claim_C7.1 dualSet dualSetB 1 1 0 0 "1 2 UADD" "1 2 UADD" none none
    (by decide) (by decide) (by decide))
  case tc => exact (claim_C7.2.2 dualSet 0 1 0
    ⟨"Counter One", "C1", "c1", "1 2 UADD", none⟩
    ⟨"Counter Two", "C2", "c2", "3 4 UADD", none⟩ "7 2 UADD"
    (by decide) (by decide) (by decide) (by decide) (by decide) (by decide) (by decide))
